import Mathlib

/-!
Shallow embedding of the word-cloud placement engine of `ja2z/wordclaude`
(`src/src/components/wordClaude.tsx`, the enhanced variant; the earlier
variant lives in `src/unnamed/part_000`).  Numbers are modelled as real
numbers (the idealized semantics of JS number arithmetic); the two places
where the source can actually divide by zero at runtime — the two statistic
ratios of `calculateLayoutStats` — are modelled with an explicit
`jsDiv : ℝ → ℝ → Option ℝ` whose `none` stands for the non-finite JS result
(NaN or ±Infinity).  The external text-measurement canvas is abstracted as a
function `measure : String → ℝ → ℝ` and `Math.random` as a stream
`rnd : ℕ → ℝ`, consumed at the same points as in the source.  Bounding boxes
in the source are always the four corners produced by
`getRotatedBoundingBox`, so `BoundingBox` fixes arity four and the source's
index loops over `points` are unrolled accordingly.
-/

namespace WordClaude

/-- Canvas point, origin top-left, y-down (interface `Point`). -/
structure Point where
  x : ℝ
  y : ℝ

/-- The four corners of a (possibly rotated) rectangle, in the order
`getRotatedBoundingBox` emits them (interface `BoundingBox`, whose
`points` array always has exactly these four entries). -/
structure BoundingBox where
  p0 : Point
  p1 : Point
  p2 : Point
  p3 : Point

/-- Input word (interface `WordCloudWord`; the optional `color` field is
render-only and never read by the layout engine, so it is omitted). -/
structure WordCloudWord where
  text : String
  value : ℝ

/-- Word-count based font scaling options (the `wordCountScaling` field). -/
structure WordCountScaling where
  enabled : Bool
  minScale : ℝ
  maxScale : ℝ
  threshold : ℝ

/-- Font configuration (interface `FontSizeConfig`). -/
structure FontSizeConfig where
  min : ℝ
  max : ℝ
  scaleFactor : Option ℝ
  wordCountScaling : Option WordCountScaling

/-- The packing strategy of `PackingConfig.strategy`. -/
inductive Strategy where
  | uniform
  | adaptive

/-- Packing configuration (interface `PackingConfig`).  `maxAttempts` is the
optional positive attempt bound (a JS number; the source reads it as
`packingConfig.maxAttempts || 500`). -/
structure PackingConfig where
  factor : ℝ
  strategy : Strategy
  minSpacing : ℝ
  bruteForce : Bool
  maxAttempts : Option ℕ
  spiralDensity : Option ℝ

/-- The `rotationMode` prop: `"any" | "orthogonal"`. -/
inductive RotationMode where
  | any
  | orthogonal

/-- The `scaleType` prop: `"linear" | "logarithmic"`. -/
inductive ScaleType where
  | linear
  | logarithmic

/-- A placed word (interface `ProcessedWord`): the input word plus resolved
position, font size, rotation, measured footprint and bounding box. -/
structure ProcessedWord extends WordCloudWord where
  x : ℝ
  y : ℝ
  fontSize : ℝ
  rotation : ℝ
  width : ℝ
  height : ℝ
  boundingBox : Option BoundingBox

/-- Result of `getSpiralPosition`: a candidate `{x, y, rotation}`. -/
structure SpiralPos where
  x : ℝ
  y : ℝ
  rotation : ℝ

/-- The source's default `FontSizeConfig` (`DEFAULT_FONT_CONFIG`). -/
noncomputable def DEFAULT_FONT_CONFIG : FontSizeConfig :=
  ⟨3, 15, some 1, some ⟨true, 0.5, 2.0, 50⟩⟩

/-- The source's default `PackingConfig` (`DEFAULT_PACKING_CONFIG`). -/
noncomputable def DEFAULT_PACKING_CONFIG : PackingConfig :=
  ⟨1.0, .adaptive, 2, true, some 500, some 12⟩

/-- JS `x || d` for an optional numeric option: `undefined` and `0` are falsy
and fall back to the default. -/
noncomputable def jsOrNum (o : Option ℝ) (d : ℝ) : ℝ :=
  match o with
  | none => d
  | some v => if v = 0 then d else v

/-- JS division modelled with an explicit zero-denominator case: `none`
stands for the non-finite JS result (NaN for 0/0, ±Infinity otherwise). -/
noncomputable def jsDiv (a b : ℝ) : Option ℝ :=
  if b = 0 then none else some (a / b)

/-- JS `Math.round`: round half up, i.e. the floor of `x + 1/2`. -/
noncomputable def jsRound (x : ℝ) : ℝ :=
  (⌊x + 1/2⌋ : ℤ)

/-- The attempt bound `packingConfig.maxAttempts || 500` read inside
`processWords` (0 is falsy in JS, hence also falls back to 500). -/
def resolveMaxAttempts (pc : PackingConfig) : ℕ :=
  match pc.maxAttempts with
  | none => 500
  | some n => if n = 0 then 500 else n

/-- How many `Math.random()` draws one `getSpiralPosition` call consumes:
two in orthogonal mode (choice and jitter), one in `"any"` mode with
`bruteForce` (jitter only), two in `"any"` mode without `bruteForce`
(choice, then the taken branch's jitter). -/
def randCount (pc : PackingConfig) (rm : RotationMode) : ℕ :=
  match rm with
  | .orthogonal => 2
  | .any => if pc.bruteForce then 1 else 2

/-- JS `Math.max(...xs)` for the nonempty lists the source applies it to
(the empty case, which JS maps to -Infinity, is never consumed because
`forEach` over an empty list does nothing). -/
noncomputable def listMaxD : List ℝ → ℝ
  | [] => 0
  | x :: xs => xs.foldl max x

/-- JS `Math.min(...xs)` for the nonempty lists the source applies it to. -/
noncomputable def listMinD : List ℝ → ℝ
  | [] => 0
  | x :: xs => xs.foldl min x

/-- The stable descending sort `[...inputWords].sort((a, b) => b.value - a.value)`.
Any stable sort agrees with the JS engine's stable sort for this comparator. -/
noncomputable def sortByValueDesc (ws : List WordCloudWord) : List WordCloudWord :=
  ws.insertionSort (fun a b => b.value ≤ a.value)

/-- Font size calculation `calculateFontSize(containerSize, words, fontConfig,
normalizedValue)`: lerp between the percent bounds of the shorter container
side, optional word-count scaling, optional global scale factor (JS truthiness:
a present 0 is falsy and skipped), then clamp to `[8, referenceSize * 0.8]`. -/
noncomputable def calculateFontSize (containerWidth containerHeight : ℝ)
    (words : List WordCloudWord) (fontConfig : FontSizeConfig)
    (normalizedValue : ℝ) : ℝ :=
  let referenceSize := min containerWidth containerHeight
  let minSize := fontConfig.min / 100 * referenceSize
  let maxSize := fontConfig.max / 100 * referenceSize
  let fontSize0 := minSize + (maxSize - minSize) * normalizedValue
  let fontSize1 :=
    match fontConfig.wordCountScaling with
    | none => fontSize0
    | some wcs =>
      if wcs.enabled then
        let wordCount : ℝ := (words.length : ℝ)
        let scale :=
          if wordCount ≤ wcs.threshold then wcs.maxScale
          else max wcs.minScale (wcs.maxScale * (Real.log wcs.threshold / Real.log wordCount))
        fontSize0 * scale
      else fontSize0
  let fontSize2 :=
    match fontConfig.scaleFactor with
    | none => fontSize1
    | some sf => if sf = 0 then fontSize1 else fontSize1 * sf
  min (max fontSize2 8) (referenceSize * 0.8)

/-- Value normalization `normalizeValue(value, minValue, maxValue, scaleType)`. -/
noncomputable def normalizeValue (value minValue maxValue : ℝ)
    (scaleType : ScaleType) : ℝ :=
  if minValue = maxValue then 0.5
  else if value ≤ 0 then 0
  else
    match scaleType with
    | .logarithmic =>
      let epsilon : ℝ := 0.000001
      let minLog := Real.log (max epsilon minValue)
      let maxLog := Real.log (max epsilon maxValue)
      let valueLog := Real.log (max epsilon value)
      (valueLog - minLog) / (maxLog - minLog)
    | .linear => (value - minValue) / (maxValue - minValue)

/-- The NaN-explicit rendering of `normalizeValue`: the same source
expression with its two divisions modelled through `jsDiv`, so the result is
`none` exactly when the source divides by zero — which happens only in the
logarithmic branch, when `minValue ≠ maxValue` but both clamp to the epsilon
(all three logarithms become `log(1e-6)` and JS computes `0/0 = NaN`).
Wherever this returns `some r`, the total-division model `normalizeValue`
agrees with the source and returns the same `r`. -/
noncomputable def normalizeValueChecked (value minValue maxValue : ℝ)
    (scaleType : ScaleType) : Option ℝ :=
  if minValue = maxValue then some 0.5
  else if value ≤ 0 then some 0
  else
    match scaleType with
    | .logarithmic =>
      let epsilon : ℝ := 0.000001
      let minLog := Real.log (max epsilon minValue)
      let maxLog := Real.log (max epsilon maxValue)
      let valueLog := Real.log (max epsilon value)
      jsDiv (valueLog - minLog) (maxLog - minLog)
    | .linear => jsDiv (value - minValue) (maxValue - minValue)

/-- Word spacing `getWordSpacing(word, packingConfig, normalizedValue)`; the
source only reads `word.width` and `word.height` from its first argument. -/
noncomputable def getWordSpacing (wordWidth wordHeight : ℝ) (pc : PackingConfig)
    (normalizedValue : ℝ) : ℝ :=
  let baseSpacing := max pc.minSpacing (min wordWidth wordHeight * 0.15)
  match pc.strategy with
  | .uniform => baseSpacing * pc.factor
  | .adaptive => baseSpacing * pc.factor * (0.5 + normalizedValue * 0.5)

/-- Segment intersection test `doLineSegmentsIntersect(p1, p2, p3, p4)`:
parallel segments (zero determinant) never intersect; otherwise both
parameters must lie in `[0, 1]`. -/
noncomputable def doLineSegmentsIntersect (p1 p2 p3 p4 : Point) : Bool :=
  let denominator := (p4.y - p3.y) * (p2.x - p1.x) - (p4.x - p3.x) * (p2.y - p1.y)
  if denominator = 0 then false
  else
    let ua := ((p4.x - p3.x) * (p1.y - p3.y) - (p4.y - p3.y) * (p1.x - p3.x)) / denominator
    let ub := ((p2.x - p1.x) * (p1.y - p3.y) - (p2.y - p1.y) * (p1.x - p3.x)) / denominator
    decide (0 ≤ ua ∧ ua ≤ 1 ∧ 0 ≤ ub ∧ ub ≤ 1)

/-- Rotated bounding box `getRotatedBoundingBox(centerX, centerY, width,
height, rotation, spacing)`: inflate by `2 * spacing`, rotate the four
half-extent corners about the center, translate. -/
noncomputable def getRotatedBoundingBox (centerX centerY width height rotation spacing : ℝ) :
    BoundingBox :=
  let radians := rotation * Real.pi / 180
  let c := Real.cos radians
  let s := Real.sin radians
  let w := width + spacing * 2
  let h := height + spacing * 2
  let hw := w / 2
  let hh := h / 2
  ⟨⟨centerX + (-hw * c - -hh * s), centerY + (-hw * s + -hh * c)⟩,
   ⟨centerX + (hw * c - -hh * s), centerY + (hw * s + -hh * c)⟩,
   ⟨centerX + (hw * c - hh * s), centerY + (hw * s + hh * c)⟩,
   ⟨centerX + (-hw * c - hh * s), centerY + (-hw * s + hh * c)⟩⟩

/-- One crossing test of the even-odd ray cast inside
`checkBoundingBoxesIntersect.isPointInsideBox`, for corner points
`a = points[i]` and `b = points[j]`. -/
noncomputable def rayCrossing (p a b : Point) : Bool :=
  (decide (a.y > p.y) != decide (b.y > p.y)) &&
    decide (p.x < (b.x - a.x) * (p.y - a.y) / (b.y - a.y) + a.x)

/-- Even-odd point-in-polygon test (`isPointInsideBox`): the parity of the
four crossing tests, with the source's `(i, j)` pairs `(0,3) (1,0) (2,1) (3,2)`. -/
noncomputable def isPointInsideBox (p : Point) (box : BoundingBox) : Bool :=
  (((rayCrossing p box.p0 box.p3).xor (rayCrossing p box.p1 box.p0)).xor
      (rayCrossing p box.p2 box.p1)).xor (rayCrossing p box.p3 box.p2)

/-- Smallest x over the box corners (`Math.min(...box.points.map(p => p.x))`). -/
noncomputable def boxMinX (b : BoundingBox) : ℝ :=
  min (min b.p0.x b.p1.x) (min b.p2.x b.p3.x)

/-- Largest x over the box corners. -/
noncomputable def boxMaxX (b : BoundingBox) : ℝ :=
  max (max b.p0.x b.p1.x) (max b.p2.x b.p3.x)

/-- Smallest y over the box corners. -/
noncomputable def boxMinY (b : BoundingBox) : ℝ :=
  min (min b.p0.y b.p1.y) (min b.p2.y b.p3.y)

/-- Largest y over the box corners. -/
noncomputable def boxMaxY (b : BoundingBox) : ℝ :=
  max (max b.p0.y b.p1.y) (max b.p2.y b.p3.y)

/-- The quick axis-aligned rejection of `checkBoundingBoxesIntersect`: true
when the axis-aligned hulls are disjoint. -/
noncomputable def aabbMiss (b1 b2 : BoundingBox) : Bool :=
  decide (boxMaxX b1 < boxMinX b2 ∨ boxMinX b1 > boxMaxX b2 ∨
    boxMaxY b1 < boxMinY b2 ∨ boxMinY b1 > boxMaxY b2)

/-- The four directed edges of a box, in the source's loop order
`(points[i], points[(i+1) % 4])`. -/
def edgesOf (b : BoundingBox) : List (Point × Point) :=
  [(b.p0, b.p1), (b.p1, b.p2), (b.p2, b.p3), (b.p3, b.p0)]

/-- The double edge loop of `checkBoundingBoxesIntersect`: some edge of
`b1` intersects some edge of `b2`. -/
noncomputable def edgeHit (b1 b2 : BoundingBox) : Bool :=
  (edgesOf b1).any fun e1 =>
    (edgesOf b2).any fun e2 => doLineSegmentsIntersect e1.1 e1.2 e2.1 e2.2

/-- Polygon overlap test `checkBoundingBoxesIntersect(box1, box2)`: AABB
rejection, then every edge pair, then containment of either first vertex. -/
noncomputable def checkBoundingBoxesIntersect (box1 box2 : BoundingBox) : Bool :=
  if aabbMiss box1 box2 then false
  else if edgeHit box1 box2 then true
  else isPointInsideBox box1.p0 box2 || isPointInsideBox box2.p0 box1

/-- The spiral angle of `getSpiralPosition`: `t * 2π * spiralDensity` with
`spiralDensity = (packingConfig.spiralDensity || 12) * (2 - packingConfig.factor)`. -/
noncomputable def spiralAngle (attempt maxAttempts : ℕ) (pc : PackingConfig) : ℝ :=
  let t : ℝ := (attempt : ℝ) / (maxAttempts : ℝ)
  let baseDensity := jsOrNum pc.spiralDensity 12
  let densityFactor := 2 - pc.factor
  t * 2 * Real.pi * (baseDensity * densityFactor)

/-- The spiral radius of `getSpiralPosition`: saturating growth from
`initialRadius` toward `maxRadius = 0.45 * min(width, height)`. -/
noncomputable def spiralRadius (attempt maxAttempts : ℕ)
    (normalizedValue width height : ℝ) (pc : PackingConfig) : ℝ :=
  let t : ℝ := (attempt : ℝ) / (maxAttempts : ℝ)
  let importance := 1 - normalizedValue * 0.5
  let progress := t * 1.5
  let packing := 1 / pc.factor
  let spiralGrowth := importance * progress * packing
  let containerSize := min width height
  let initialRadius := containerSize * 0.05 * pc.factor
  let maxRadius := containerSize * 0.45
  initialRadius + (maxRadius - initialRadius) * (1 - Real.exp (-spiralGrowth * 3))

/-- The rotation policy of `getSpiralPosition`, with the two potentially
consumed `Math.random()` draws passed in as `r1`, `r2`.  In the `bruteForce`
branch, `rotationAttempts[rotationIndex] || 0` yields the table entry for
indices 1..3 and 0 otherwise (entry 0 is itself 0, and an out-of-range index
gives `undefined || 0 = 0`). -/
noncomputable def spiralRotation (attempt maxAttempts : ℕ) (pc : PackingConfig)
    (rm : RotationMode) (r1 r2 : ℝ) : ℝ :=
  match rm with
  | .orthogonal => (if r1 > 0.5 then (0 : ℝ) else -90) + (r2 - 0.5) * 2
  | .any =>
    if pc.bruteForce then
      let rotationIndex : ℤ := ⌊(attempt : ℝ) / ((maxAttempts : ℝ) / 4)⌋
      let base : ℝ :=
        if rotationIndex = 1 then 45
        else if rotationIndex = 2 then 90
        else if rotationIndex = 3 then -45
        else 0
      base + (r1 - 0.5) * 10
    else if r1 > 0.5 then 0 + (r2 - 0.5) * 5 else 90 + (r2 - 0.5) * 5

/-- Candidate generator `getSpiralPosition(attempt, maxAttempts,
normalizedValue, width, height, packingConfig, rotationMode)`. -/
noncomputable def getSpiralPosition (attempt maxAttempts : ℕ)
    (normalizedValue width height : ℝ) (pc : PackingConfig) (rm : RotationMode)
    (r1 r2 : ℝ) : SpiralPos :=
  ⟨width / 2 + spiralRadius attempt maxAttempts normalizedValue width height pc *
      Real.cos (spiralAngle attempt maxAttempts pc),
   height / 2 + spiralRadius attempt maxAttempts normalizedValue width height pc *
      Real.sin (spiralAngle attempt maxAttempts pc),
   spiralRotation attempt maxAttempts pc rm r1 r2⟩

/-- A corner lies inside the margin frame: the conjuncts of the source's
`point.x >= margin && point.x <= width - margin && point.y >= margin &&
point.y <= height - margin`. -/
def PointWithin (p : Point) (margin w h : ℝ) : Prop :=
  margin ≤ p.x ∧ p.x ≤ w - margin ∧ margin ≤ p.y ∧ p.y ≤ h - margin

/-- All four corners lie inside the margin frame (the source's
`newWordBox.points.every(...)`). -/
def BoxWithin (b : BoundingBox) (margin w h : ℝ) : Prop :=
  PointWithin b.p0 margin w h ∧ PointWithin b.p1 margin w h ∧
    PointWithin b.p2 margin w h ∧ PointWithin b.p3 margin w h

/-- Boolean corner test used by the placement loop. -/
noncomputable def pointInB (p : Point) (margin w h : ℝ) : Bool :=
  decide (margin ≤ p.x) && decide (p.x ≤ w - margin) &&
    decide (margin ≤ p.y) && decide (p.y ≤ h - margin)

/-- Boolean in-bounds test of the placement loop. -/
noncomputable def inBoundsB (b : BoundingBox) (margin w h : ℝ) : Bool :=
  pointInB b.p0 margin w h && pointInB b.p1 margin w h &&
    pointInB b.p2 margin w h && pointInB b.p3 margin w h

/-- The collision scan `placedWords.some(placedWord =>
checkBoundingBoxesIntersect(newWordBox, placedWord.boundingBox!))`.  Every
pushed word carries `some` box, so the `none` arm is never reached on the
lists the loop is run against. -/
noncomputable def overlapAny (placed : List ProcessedWord) (box : BoundingBox) : Bool :=
  placed.any fun pw => pw.boundingBox.elim false fun b2 => checkBoundingBoxesIntersect box b2

/-- The loop-invariant data of one word's placement search inside
`processWords`: container and word geometry, configuration, the words placed
so far, and the random stream with its current offset. -/
structure PlaceCtx where
  width : ℝ
  height : ℝ
  normalizedValue : ℝ
  wordWidth : ℝ
  wordHeight : ℝ
  pc : PackingConfig
  rm : RotationMode
  maxA : ℕ
  placedWords : List ProcessedWord
  rnd : ℕ → ℝ
  off : ℕ

/-- The best accepted candidate so far: `bestDistance`, `bestPosition`,
`bestBox` of the source (the `Infinity` initial distance is modelled by the
`none` of the surrounding `Option`). -/
structure BestCand where
  distance : ℝ
  pos : SpiralPos
  box : BoundingBox

/-- The state a word's attempt loop ends in: `attempts`, the best candidate,
and the `placed` flag. -/
structure PlaceState where
  attempts : ℕ
  best : Option BestCand
  placed : Bool

/-- The margin of the in-bounds check:
`min(width, height) * (0.02 * packingConfig.factor)`. -/
noncomputable def ctxMargin (ctx : PlaceCtx) : ℝ :=
  min ctx.width ctx.height * (0.02 * ctx.pc.factor)

/-- The candidate position of attempt `i`, with the `Math.random()` draws the
source takes at this point of the stream. -/
noncomputable def candPos (ctx : PlaceCtx) (i : ℕ) : SpiralPos :=
  getSpiralPosition i ctx.maxA ctx.normalizedValue ctx.width ctx.height ctx.pc ctx.rm
    (ctx.rnd (ctx.off + i * randCount ctx.pc ctx.rm))
    (ctx.rnd (ctx.off + i * randCount ctx.pc ctx.rm + 1))

/-- The spacing the loop recomputes each iteration (it does not depend on the
candidate, only on word footprint, configuration and normalized value). -/
noncomputable def candSpacing (ctx : PlaceCtx) : ℝ :=
  getWordSpacing ctx.wordWidth ctx.wordHeight ctx.pc ctx.normalizedValue

/-- The padded candidate bounding box of attempt `i`. -/
noncomputable def candBox (ctx : PlaceCtx) (i : ℕ) : BoundingBox :=
  getRotatedBoundingBox (candPos ctx i).x (candPos ctx i).y ctx.wordWidth ctx.wordHeight
    (candPos ctx i).rotation (candSpacing ctx)

/-- Whether attempt `i`'s candidate passes both checks
(`!hasOverlap && inBounds`). -/
noncomputable def candAccept (ctx : PlaceCtx) (i : ℕ) : Bool :=
  !(overlapAny ctx.placedWords (candBox ctx i)) &&
    inBoundsB (candBox ctx i) (ctxMargin ctx) ctx.width ctx.height

/-- Euclidean distance of attempt `i`'s candidate to the container center. -/
noncomputable def candDist (ctx : PlaceCtx) (i : ℕ) : ℝ :=
  Real.sqrt (((candPos ctx i).x - ctx.width / 2) ^ 2 +
    ((candPos ctx i).y - ctx.height / 2) ^ 2)

/-- Keep the accepted candidate closest to the center
(`if (distance < bestDistance) ...`; `none` plays `Infinity`). -/
noncomputable def bestUpdate (best : Option BestCand) (d : ℝ) (pos : SpiralPos)
    (box : BoundingBox) : Option BestCand :=
  match best with
  | none => some ⟨d, pos, box⟩
  | some b => if d < b.distance then some ⟨d, pos, box⟩ else some b

/-- The attempt loop `while (!placed && attempts < maxAttempts) ...` of
`processWords`, as a recursion on the remaining fuel
(`fuel = maxAttempts - attempts` at entry). -/
noncomputable def placeLoop (ctx : PlaceCtx) : ℕ → ℕ → Option BestCand → PlaceState
  | 0, att, best => ⟨att, best, false⟩
  | fuel + 1, att, best =>
    if candAccept ctx att then
      let d := candDist ctx att
      let best2 := bestUpdate best d (candPos ctx att) (candBox ctx att)
      if d < ctx.width * 0.1 ∨ (att : ℝ) > (ctx.maxA : ℝ) * 0.8 then ⟨att + 1, best2, true⟩
      else placeLoop ctx fuel (att + 1) best2
    else placeLoop ctx fuel (att + 1) best

/-- One word's full placement search (`attempts = 0`, no best candidate yet,
`maxAttempts` iterations of fuel). -/
noncomputable def placeWord (ctx : PlaceCtx) : PlaceState :=
  placeLoop ctx ctx.maxA 0 none

/-- The placement context `processWords` sets up for one word: its normalized
value, resolved font size (which is also the measured height), measured width,
and the accumulated placed words with the current random-stream offset. -/
noncomputable def wordCtx (width height : ℝ) (fontConfig : FontSizeConfig)
    (pc : PackingConfig) (rm : RotationMode) (st : ScaleType)
    (measure : String → ℝ → ℝ) (rnd : ℕ → ℝ) (allWords : List WordCloudWord)
    (minValue maxValue : ℝ) (maxA : ℕ) (acc : List ProcessedWord) (off : ℕ)
    (word : WordCloudWord) : PlaceCtx :=
  let nv := normalizeValue word.value minValue maxValue st
  let fontSize := calculateFontSize width height allWords fontConfig nv
  ⟨width, height, nv, measure word.text fontSize, fontSize, pc, rm, maxA, acc, rnd, off⟩

/-- The `ProcessedWord` pushed for a successfully placed word
(`{...word, ...bestPosition, fontSize, width, height, boundingBox}`); in the
source `wordHeight` and `fontSize` are the same value. -/
noncomputable def mkPlaced (word : WordCloudWord) (ctx : PlaceCtx) (b : BestCand) :
    ProcessedWord :=
  ⟨word, b.pos.x, b.pos.y, ctx.wordHeight, b.pos.rotation, ctx.wordWidth, ctx.wordHeight,
    some b.box⟩

/-- Commit the best candidate (`if (bestPosition && bestBox) placedWords.push(...)`):
append the placed word when the search found one, otherwise drop the word. -/
noncomputable def pushPlaced (acc : List ProcessedWord) (word : WordCloudWord)
    (ctx : PlaceCtx) : Option BestCand → List ProcessedWord
  | some b => acc ++ [mkPlaced word ctx b]
  | none => acc

/-- The body of the `sortedWords.forEach(...)` of `processWords`, recursing
over the remaining words while accumulating the placed words and the random
stream offset. -/
noncomputable def processWordsAux (width height : ℝ) (fontConfig : FontSizeConfig)
    (pc : PackingConfig) (rm : RotationMode) (st : ScaleType)
    (measure : String → ℝ → ℝ) (rnd : ℕ → ℝ) (allWords : List WordCloudWord)
    (minValue maxValue : ℝ) (maxA : ℕ) :
    List WordCloudWord → List ProcessedWord → ℕ → List ProcessedWord
  | [], acc, _ => acc
  | word :: rest, acc, off =>
    let ctx := wordCtx width height fontConfig pc rm st measure rnd allWords minValue maxValue
      maxA acc off word
    let stt := placeWord ctx
    processWordsAux width height fontConfig pc rm st measure rnd allWords minValue maxValue
      maxA rest (pushPlaced acc word ctx stt.best) (off + stt.attempts * randCount pc rm)

/-- The placement orchestrator `processWords(inputWords, width, height,
fontConfig, packingConfig, rotationMode, scaleType)`, with the abstracted
text measurer and random stream as explicit extra inputs. -/
noncomputable def processWords (inputWords : List WordCloudWord) (width height : ℝ)
    (fontConfig : FontSizeConfig) (pc : PackingConfig) (rm : RotationMode)
    (st : ScaleType) (measure : String → ℝ → ℝ) (rnd : ℕ → ℝ) : List ProcessedWord :=
  let sortedWords := sortByValueDesc inputWords
  let maxValue := listMaxD (sortedWords.map WordCloudWord.value)
  let minValue := listMinD (sortedWords.map WordCloudWord.value)
  let maxA := resolveMaxAttempts pc
  processWordsAux width height fontConfig pc rm st measure rnd sortedWords minValue maxValue
    maxA sortedWords [] 0

/-- The per-box term of the coverage sum in `calculateLayoutStats`:
`Math.abs((p0.x - p2.x) * (p0.y - p2.y))` over the diagonal corners. -/
noncomputable def codeBoxArea (b : BoundingBox) : ℝ :=
  |(b.p0.x - b.p2.x) * (b.p0.y - b.p2.y)|

/-- The `reduce` accumulating the covered area over the processed words,
skipping words without a bounding box. -/
noncomputable def coveredAreaSum (pws : List ProcessedWord) : ℝ :=
  pws.foldl
    (fun area w =>
      match w.boundingBox with
      | none => area
      | some box => area + codeBoxArea box)
    0

/-- The statistics record returned by `calculateLayoutStats`. -/
structure LayoutStats where
  placed : ℕ
  total : ℕ
  avgAttempts : Option ℝ
  coverage : Option ℝ

/-- Layout statistics `calculateLayoutStats(processedWords, originalWordCount,
attempts, width, height)`.  The two ratios go through `jsDiv`: with a zero
denominator the JS source produces a non-finite number (NaN for the empty
word list), modelled as `none`. -/
noncomputable def calculateLayoutStats (processedWords : List ProcessedWord)
    (originalWordCount : ℕ) (attempts : List (String × ℝ)) (width height : ℝ) :
    LayoutStats :=
  let placedCount := (processedWords.filter fun w => w.boundingBox.isSome).length
  let avgAttempts := jsDiv ((attempts.map Prod.snd).sum) (originalWordCount : ℝ)
  let totalArea := width * height
  let coveredArea := coveredAreaSum processedWords
  ⟨placedCount, originalWordCount,
    avgAttempts.map fun a => jsRound (a * 10) / 10,
    (jsDiv coveredArea totalArea).map fun c => jsRound (c * 1000) / 10⟩

/-- The attempts map the `WordCloud` component builds right after calling
`processWords` (`words.forEach((word) => { attempts[word.text] = 0; })`):
every word is mapped to 0. -/
def componentAttempts (words : List WordCloudWord) : List (String × ℝ) :=
  words.map fun w => (w.text, (0 : ℝ))

/-- Modelled from the spec: "coverage% = (sum of each placed box's
axis-aligned area / (width*height)) * 100, rounded to one decimal", reading
"axis-aligned area" as the area of the box's axis-aligned hull. -/
noncomputable def aabbArea (b : BoundingBox) : ℝ :=
  (boxMaxX b - boxMinX b) * (boxMaxY b - boxMinY b)

/-- Modelled from the spec: the coverage figure the spec's formula describes,
with the axis-aligned hull area of each placed box. -/
noncomputable def coverageSpecAabb (pws : List ProcessedWord) (width height : ℝ) : ℝ :=
  jsRound (((pws.filterMap ProcessedWord.boundingBox).map aabbArea).sum /
    (width * height) * 100 * 10) / 10

/-- Two processed words whose bounding boxes do not intersect, in either
argument order of `checkBoundingBoxesIntersect`. -/
def NoOverlapPW (a b : ProcessedWord) : Prop :=
  ∀ ba bb, a.boundingBox = some ba → b.boundingBox = some bb →
    checkBoundingBoxesIntersect ba bb = false ∧ checkBoundingBoxesIntersect bb ba = false

/-- A step of the attempt loop that stops the search for this word: the
candidate is accepted and the source's stop condition
`distance < width * 0.1 || attempts > maxAttempts * 0.8` holds. -/
def GoodStep (ctx : PlaceCtx) (i : ℕ) : Prop :=
  candAccept ctx i = true ∧
    (candDist ctx i < ctx.width * 0.1 ∨ (i : ℝ) > (ctx.maxA : ℝ) * 0.8)

/-- What the accept test of the loop certifies about a candidate box: no
intersection with any already placed box, and all corners inside the margin
frame. -/
def GoodBox (placed : List ProcessedWord) (margin w h : ℝ) (box : BoundingBox) : Prop :=
  overlapAny placed box = false ∧ inBoundsB box margin w h = true

/-- Packing configuration of the C3 counterexample run: factor 2 (densest),
uniform strategy, no brute force, explicit defaults elsewhere. -/
noncomputable def pcC3 : PackingConfig := ⟨2, .uniform, 2, false, some 500, some 12⟩

/-- Placement context of the C3 counterexample: a 1000 × 100 container, the
single-word normalized value 1/2, a word measured 10 wide at font size 9
(the size `calculateFontSize` yields for `fontConfig = ⟨3, 15, none, none⟩`
at normalized value 1/2 in this container), and a random stream that is
constantly 1/2. -/
noncomputable def ctxC3 : PlaceCtx :=
  ⟨1000, 100, 1/2, 10, 9, pcC3, .any, 500, [], fun _ => 1/2, 0⟩

/-- Packing configuration of the C5 failing input (factor 1, uniform). -/
noncomputable def pcC5 : PackingConfig := ⟨1, .uniform, 2, false, some 500, some 12⟩

/-- Font configuration of the C5 failing input. -/
noncomputable def fcC5 : FontSizeConfig := ⟨3, 15, none, none⟩

/-- The single word of the C5 failing input. -/
noncomputable def wordC5 : WordCloudWord := ⟨"w", 1⟩

/-- The 45-degree-rotated unit-diagonal box of the C9 counterexample:
corners (5,4), (6,5), (5,6), (4,5). -/
noncomputable def boxC9 : BoundingBox := ⟨⟨5, 4⟩, ⟨6, 5⟩, ⟨5, 6⟩, ⟨4, 5⟩⟩

/-- A processed word carrying the rotated box `boxC9`, for the C9
counterexample. -/
noncomputable def pwC9 : ProcessedWord := ⟨⟨"a", 1⟩, 5, 5, 1, 45, 2, 1, some boxC9⟩

/-! ## List fold helpers for the `Math.min(...)/Math.max(...)` reductions -/

theorem foldl_max_init_le (xs : List ℝ) : ∀ x y : ℝ, x ≤ y → x ≤ xs.foldl max y := by
  induction xs with
  | nil => intro x y h; simpa using h
  | cons z zs ih =>
    intro x y h
    simp only [List.foldl_cons]
    exact ih x (max y z) (h.trans (le_max_left y z))

theorem foldl_max_mem_le (xs : List ℝ) : ∀ (y a : ℝ), a ∈ xs → a ≤ xs.foldl max y := by
  induction xs with
  | nil => intro y a h; cases h
  | cons z zs ih =>
    intro y a h
    simp only [List.foldl_cons]
    rcases List.mem_cons.mp h with rfl | h2
    · exact foldl_max_init_le zs a (max y a) (le_max_right y a)
    · exact ih (max y z) a h2

theorem le_listMaxD (l : List ℝ) (a : ℝ) (h : a ∈ l) : a ≤ listMaxD l := by
  cases l with
  | nil => cases h
  | cons x xs =>
    rcases List.mem_cons.mp h with rfl | h2
    · exact foldl_max_init_le xs a a le_rfl
    · exact foldl_max_mem_le xs x a h2

theorem le_foldl_min_init (xs : List ℝ) : ∀ x y : ℝ, y ≤ x → xs.foldl min y ≤ x := by
  induction xs with
  | nil => intro x y h; simpa using h
  | cons z zs ih =>
    intro x y h
    simp only [List.foldl_cons]
    exact ih x (min y z) ((min_le_left y z).trans h)

theorem foldl_min_le_mem (xs : List ℝ) : ∀ (y a : ℝ), a ∈ xs → xs.foldl min y ≤ a := by
  induction xs with
  | nil => intro y a h; cases h
  | cons z zs ih =>
    intro y a h
    simp only [List.foldl_cons]
    rcases List.mem_cons.mp h with rfl | h2
    · exact le_foldl_min_init zs a (min y a) (min_le_right y a)
    · exact ih (min y z) a h2

theorem listMinD_le (l : List ℝ) (a : ℝ) (h : a ∈ l) : listMinD l ≤ a := by
  cases l with
  | nil => cases h
  | cons x xs =>
    rcases List.mem_cons.mp h with rfl | h2
    · exact le_foldl_min_init xs a a le_rfl
    · exact foldl_min_le_mem xs x a h2

/-! ## Normalization: bounds and monotonicity -/

theorem normalizeValue_nonneg (v mn mx : ℝ) (st : ScaleType)
    (hmn : mn ≤ v) (hmx : v ≤ mx) : 0 ≤ normalizeValue v mn mx st := by
  by_cases he : mn = mx
  · simp [normalizeValue, he]; norm_num
  · by_cases hv : v ≤ 0
    · simp [normalizeValue, he, hv]
    · cases st with
      | linear =>
        simp only [normalizeValue, if_neg he, if_neg hv]
        have hlt : mn < mx := lt_of_le_of_ne (hmn.trans hmx) he
        exact div_nonneg (by linarith) (by linarith)
      | logarithmic =>
        simp only [normalizeValue, if_neg he, if_neg hv]
        apply div_nonneg
        · have : Real.log (max 0.000001 mn) ≤ Real.log (max 0.000001 v) :=
            Real.log_le_log (lt_max_of_lt_left (by norm_num)) (max_le_max le_rfl hmn)
          linarith
        · have : Real.log (max 0.000001 mn) ≤ Real.log (max 0.000001 mx) :=
            Real.log_le_log (lt_max_of_lt_left (by norm_num)) (max_le_max le_rfl (hmn.trans hmx))
          linarith

theorem normalizeValue_mono (vb va mn mx : ℝ) (st : ScaleType)
    (hmn : mn ≤ vb) (hab : vb ≤ va) (hmx : va ≤ mx) :
    normalizeValue vb mn mx st ≤ normalizeValue va mn mx st := by
  by_cases he : mn = mx
  · simp [normalizeValue, he]
  · have hlt : mn < mx := lt_of_le_of_ne (hmn.trans (hab.trans hmx)) he
    by_cases hva : va ≤ 0
    · have hvb : vb ≤ 0 := hab.trans hva
      simp [normalizeValue, he, hva, hvb]
    · by_cases hvb : vb ≤ 0
      · have h0 : normalizeValue vb mn mx st = 0 := by simp [normalizeValue, he, hvb]
        rw [h0]
        exact normalizeValue_nonneg va mn mx st (hmn.trans hab) hmx
      · cases st with
        | linear =>
          simp only [normalizeValue, if_neg he, if_neg hva, if_neg hvb]
          have hd : 0 < mx - mn := by linarith
          exact (div_le_div_iff_of_pos_right hd).mpr (by linarith)
        | logarithmic =>
          simp only [normalizeValue, if_neg he, if_neg hva, if_neg hvb]
          have hnum : Real.log (max 0.000001 vb) ≤ Real.log (max 0.000001 va) :=
            Real.log_le_log (lt_max_of_lt_left (by norm_num)) (max_le_max le_rfl hab)
          have hden : Real.log (max 0.000001 mn) ≤ Real.log (max 0.000001 mx) :=
            Real.log_le_log (lt_max_of_lt_left (by norm_num))
              (max_le_max le_rfl (hmn.trans (hab.trans hmx)))
          rcases eq_or_lt_of_le hden with h0 | hpos
          · rw [show Real.log (max 0.000001 mx) - Real.log (max 0.000001 mn) = 0 by linarith]
            simp
          · exact (div_le_div_iff_of_pos_right (by linarith)).mpr (by linarith)

/-- C6 (counterexample): with `minValue = -2 < value = -1 < maxValue = 1` the
guard `value <= 0` of `normalizeValue` returns 0, which is not strictly
inside `(0, 1)` as the claim requires (linear mode, so the epsilon proviso
does not apply). -/
theorem C6_normalize_bounds_counterexample :
    (-2 : ℝ) < -1 ∧ (-1 : ℝ) < 1 ∧ normalizeValue (-1) (-2) 1 ScaleType.linear = 0 ∧
      ¬ (0 < normalizeValue (-1) (-2) 1 ScaleType.linear ∧
          normalizeValue (-1) (-2) 1 ScaleType.linear < 1) := by
  have h0 : normalizeValue (-1) (-2) 1 ScaleType.linear = 0 := by
    simp only [normalizeValue]
    rw [if_neg (by norm_num), if_pos (by norm_num)]
  exact ⟨by norm_num, by norm_num, h0, by rw [h0]; simp⟩

/-- C6 (amended): on the range untouched by the sign guard and the epsilon
clamp (`1e-6 ≤ minValue`), `normalizeValue` maps `minValue < value < maxValue`
strictly into `(0, 1)`, `minValue` to exactly 0 and `maxValue` to exactly 1,
under both scale types. -/
theorem C6_normalize_bounds_amended (minV maxV v : ℝ) (st : ScaleType)
    (hε : (0.000001 : ℝ) ≤ minV) (h1 : minV < v) (h2 : v < maxV) :
    (0 < normalizeValue v minV maxV st ∧ normalizeValue v minV maxV st < 1) ∧
    normalizeValue minV minV maxV st = 0 ∧ normalizeValue maxV minV maxV st = 1 := by
  have hm0 : (0 : ℝ) < minV := lt_of_lt_of_le (by norm_num) hε
  have hv0 : (0 : ℝ) < v := hm0.trans h1
  have hx0 : (0 : ℝ) < maxV := hv0.trans h2
  have hne : minV ≠ maxV := ne_of_lt (h1.trans h2)
  cases st with
  | linear =>
    refine ⟨⟨?_, ?_⟩, ?_, ?_⟩
    · simp only [normalizeValue, if_neg hne, if_neg (not_le.mpr hv0)]
      exact div_pos (by linarith) (by linarith)
    · simp only [normalizeValue, if_neg hne, if_neg (not_le.mpr hv0)]
      rw [div_lt_one (by linarith)]
      linarith
    · simp only [normalizeValue, if_neg hne, if_neg (not_le.mpr hm0)]
      simp
    · simp only [normalizeValue, if_neg hne, if_neg (not_le.mpr hx0)]
      exact div_self (ne_of_gt (by linarith))
  | logarithmic =>
    have hmv : max (0.000001 : ℝ) minV = minV := max_eq_right hε
    have hvv : max (0.000001 : ℝ) v = v := max_eq_right (hε.trans h1.le)
    have hxv : max (0.000001 : ℝ) maxV = maxV := max_eq_right (hε.trans (h1.trans h2).le)
    have l1 : Real.log minV < Real.log v := Real.log_lt_log hm0 h1
    have l2 : Real.log v < Real.log maxV := Real.log_lt_log hv0 h2
    refine ⟨⟨?_, ?_⟩, ?_, ?_⟩
    · simp only [normalizeValue, if_neg hne, if_neg (not_le.mpr hv0), hmv, hvv, hxv]
      exact div_pos (by linarith) (by linarith)
    · simp only [normalizeValue, if_neg hne, if_neg (not_le.mpr hv0), hmv, hvv, hxv]
      rw [div_lt_one (by linarith)]
      linarith
    · simp only [normalizeValue, if_neg hne, if_neg (not_le.mpr hm0), hmv, hxv]
      simp
    · simp only [normalizeValue, if_neg hne, if_neg (not_le.mpr hx0), hmv, hxv]
      exact div_self (ne_of_gt (by linarith))

/-- C6 (witness): the amended bounds at `minValue = 1`, `value = 2`,
`maxValue = 4` under the linear scale. -/
theorem C6_normalize_bounds_witness :
    (0 < normalizeValue 2 1 4 ScaleType.linear ∧ normalizeValue 2 1 4 ScaleType.linear < 1) ∧
    normalizeValue 1 1 4 ScaleType.linear = 0 ∧ normalizeValue 4 1 4 ScaleType.linear = 1 :=
  C6_normalize_bounds_amended 1 4 2 ScaleType.linear (by norm_num) (by norm_num) (by norm_num)

set_option maxHeartbeats 1000000 in
/-- C7: for a packing factor in `(0, 2]`, a normalized value in `[0, 1]` and
a positive attempt bound, the spiral radius is monotone non-decreasing in the
attempt index, bounded above by `0.45 * min(width, height)`, and a higher
normalized value gives an equal-or-smaller radius at equal attempt. -/
theorem C7_spiral_radius_shape (width height nv nv2 : ℝ) (pc : PackingConfig)
    (a1 a2 maxA : ℕ) (hw : 0 ≤ width) (hh : 0 ≤ height)
    (hf0 : 0 < pc.factor) (hf2 : pc.factor ≤ 2)
    (hnv0 : 0 ≤ nv) (hnv1 : nv ≤ 1) (hnv20 : 0 ≤ nv2) (hnv21 : nv2 ≤ 1) (hnv12 : nv ≤ nv2)
    (hmaxA : 0 < maxA) (h12 : a1 ≤ a2) (ha2 : a2 < maxA) :
    spiralRadius a1 maxA nv width height pc ≤ spiralRadius a2 maxA nv width height pc ∧
    spiralRadius a1 maxA nv width height pc ≤ 0.45 * min width height ∧
    spiralRadius a1 maxA nv2 width height pc ≤ spiralRadius a1 maxA nv width height pc := by
  have hm : (0 : ℝ) ≤ min width height := le_min hw hh
  have hMA : (0 : ℝ) < (maxA : ℝ) := by exact_mod_cast hmaxA
  have hinv : (0 : ℝ) ≤ 1 / pc.factor := by positivity
  have ht1 : (0 : ℝ) ≤ (a1 : ℝ) / (maxA : ℝ) := by positivity
  have ht2 : (0 : ℝ) ≤ (a2 : ℝ) / (maxA : ℝ) := by positivity
  have ht12 : (a1 : ℝ) / (maxA : ℝ) ≤ (a2 : ℝ) / (maxA : ℝ) :=
    (div_le_div_iff_of_pos_right hMA).mpr (by exact_mod_cast h12)
  have himp : (0 : ℝ) ≤ 1 - nv * 0.5 := by linarith
  have himp2 : (0 : ℝ) ≤ 1 - nv2 * 0.5 := by linarith
  have hg1 : (0 : ℝ) ≤ (1 - nv * 0.5) * ((a1 : ℝ) / (maxA : ℝ) * 1.5) * (1 / pc.factor) := by
    apply mul_nonneg (mul_nonneg himp (by linarith)) hinv
  have hg2 : (0 : ℝ) ≤ (1 - nv * 0.5) * ((a2 : ℝ) / (maxA : ℝ) * 1.5) * (1 / pc.factor) := by
    apply mul_nonneg (mul_nonneg himp (by linarith)) hinv
  have hg3 : (0 : ℝ) ≤ (1 - nv2 * 0.5) * ((a1 : ℝ) / (maxA : ℝ) * 1.5) * (1 / pc.factor) := by
    apply mul_nonneg (mul_nonneg himp2 (by linarith)) hinv
  have hg12 : (1 - nv * 0.5) * ((a1 : ℝ) / (maxA : ℝ) * 1.5) * (1 / pc.factor) ≤
      (1 - nv * 0.5) * ((a2 : ℝ) / (maxA : ℝ) * 1.5) * (1 / pc.factor) := by
    apply mul_le_mul_of_nonneg_right _ hinv
    apply mul_le_mul_of_nonneg_left (by linarith) himp
  have hg32 : (1 - nv2 * 0.5) * ((a1 : ℝ) / (maxA : ℝ) * 1.5) * (1 / pc.factor) ≤
      (1 - nv * 0.5) * ((a1 : ℝ) / (maxA : ℝ) * 1.5) * (1 / pc.factor) := by
    apply mul_le_mul_of_nonneg_right _ hinv
    apply mul_le_mul_of_nonneg_right _ (by linarith)
    linarith
  have hE1pos : 0 < Real.exp (-((1 - nv * 0.5) * ((a1 : ℝ) / (maxA : ℝ) * 1.5) *
      (1 / pc.factor)) * 3) := Real.exp_pos _
  have hE2pos : 0 < Real.exp (-((1 - nv * 0.5) * ((a2 : ℝ) / (maxA : ℝ) * 1.5) *
      (1 / pc.factor)) * 3) := Real.exp_pos _
  have hE3pos : 0 < Real.exp (-((1 - nv2 * 0.5) * ((a1 : ℝ) / (maxA : ℝ) * 1.5) *
      (1 / pc.factor)) * 3) := Real.exp_pos _
  have hE1le : Real.exp (-((1 - nv * 0.5) * ((a1 : ℝ) / (maxA : ℝ) * 1.5) *
      (1 / pc.factor)) * 3) ≤ 1 := by
    have := Real.exp_le_exp.mpr (show -((1 - nv * 0.5) * ((a1 : ℝ) / (maxA : ℝ) * 1.5) *
      (1 / pc.factor)) * 3 ≤ 0 by linarith)
    simpa [Real.exp_zero] using this
  have hE3le : Real.exp (-((1 - nv2 * 0.5) * ((a1 : ℝ) / (maxA : ℝ) * 1.5) *
      (1 / pc.factor)) * 3) ≤ 1 := by
    have := Real.exp_le_exp.mpr (show -((1 - nv2 * 0.5) * ((a1 : ℝ) / (maxA : ℝ) * 1.5) *
      (1 / pc.factor)) * 3 ≤ 0 by linarith)
    simpa [Real.exp_zero] using this
  have hE12 : Real.exp (-((1 - nv * 0.5) * ((a2 : ℝ) / (maxA : ℝ) * 1.5) *
      (1 / pc.factor)) * 3) ≤ Real.exp (-((1 - nv * 0.5) * ((a1 : ℝ) / (maxA : ℝ) * 1.5) *
      (1 / pc.factor)) * 3) := Real.exp_le_exp.mpr (by linarith)
  have hE31 : Real.exp (-((1 - nv * 0.5) * ((a1 : ℝ) / (maxA : ℝ) * 1.5) *
      (1 / pc.factor)) * 3) ≤ Real.exp (-((1 - nv2 * 0.5) * ((a1 : ℝ) / (maxA : ℝ) * 1.5) *
      (1 / pc.factor)) * 3) := Real.exp_le_exp.mpr (by linarith)
  have hC : (0 : ℝ) ≤ min width height * 0.45 - min width height * 0.05 * pc.factor := by
    nlinarith [mul_nonneg hm (show (0 : ℝ) ≤ 0.45 - 0.05 * pc.factor by linarith)]
  refine ⟨?_, ?_, ?_⟩
  · simp only [spiralRadius]
    nlinarith [mul_nonneg hC (sub_nonneg.mpr hE12)]
  · simp only [spiralRadius]
    nlinarith [mul_nonneg hC hE1pos.le]
  · simp only [spiralRadius]
    nlinarith [mul_nonneg hC (sub_nonneg.mpr hE31)]

/-- C7 (witness): the radius shape facts at container 1000 × 100, packing
factor 1, normalized values 0 and 1, attempts 1 ≤ 2 of 500. -/
theorem C7_spiral_radius_shape_witness :
    spiralRadius 1 500 0 1000 100 DEFAULT_PACKING_CONFIG ≤
      spiralRadius 2 500 0 1000 100 DEFAULT_PACKING_CONFIG ∧
    spiralRadius 1 500 0 1000 100 DEFAULT_PACKING_CONFIG ≤ 0.45 * min 1000 100 ∧
    spiralRadius 1 500 1 1000 100 DEFAULT_PACKING_CONFIG ≤
      spiralRadius 1 500 0 1000 100 DEFAULT_PACKING_CONFIG :=
  C7_spiral_radius_shape 1000 100 0 1 DEFAULT_PACKING_CONFIG 1 2 500 (by norm_num) (by norm_num)
    (by norm_num [DEFAULT_PACKING_CONFIG]) (by norm_num [DEFAULT_PACKING_CONFIG]) (by norm_num)
    (by norm_num) (by norm_num) (by norm_num) (by norm_num) (by norm_num) (by norm_num)
    (by norm_num)

/-- Monotonicity of the font size resolver in the normalized value, under the
documented configuration invariants (nonnegative scale factors, min ≤ max). -/
theorem calculateFontSize_mono (w h : ℝ) (ws : List WordCloudWord) (fc : FontSizeConfig)
    (hw : 0 ≤ w) (hh : 0 ≤ h) (hfc : fc.min ≤ fc.max)
    (hsf : ∀ sf, fc.scaleFactor = some sf → 0 ≤ sf)
    (hwcs : ∀ wcs, fc.wordCountScaling = some wcs → 0 ≤ wcs.minScale ∧ 0 ≤ wcs.maxScale)
    (nv1 nv2 : ℝ) (h12 : nv1 ≤ nv2) :
    calculateFontSize w h ws fc nv1 ≤ calculateFontSize w h ws fc nv2 := by
  have href : (0 : ℝ) ≤ min w h := le_min hw hh
  have hd : (0 : ℝ) ≤ fc.max / 100 * min w h - fc.min / 100 * min w h := by
    have : fc.min / 100 * min w h ≤ fc.max / 100 * min w h :=
      mul_le_mul_of_nonneg_right (by linarith) href
    linarith
  have hbase : fc.min / 100 * min w h + (fc.max / 100 * min w h - fc.min / 100 * min w h) * nv1 ≤
      fc.min / 100 * min w h + (fc.max / 100 * min w h - fc.min / 100 * min w h) * nv2 := by
    nlinarith
  simp only [calculateFontSize]
  apply min_le_min _ le_rfl
  apply max_le_max _ le_rfl
  have hstage1 :
      (match fc.wordCountScaling with
        | none => fc.min / 100 * min w h + (fc.max / 100 * min w h - fc.min / 100 * min w h) * nv1
        | some wcs =>
          if wcs.enabled then
            (fc.min / 100 * min w h + (fc.max / 100 * min w h - fc.min / 100 * min w h) * nv1) *
              (if (ws.length : ℝ) ≤ wcs.threshold then wcs.maxScale
               else max wcs.minScale (wcs.maxScale * (Real.log wcs.threshold / Real.log (ws.length : ℝ))))
          else fc.min / 100 * min w h + (fc.max / 100 * min w h - fc.min / 100 * min w h) * nv1) ≤
      (match fc.wordCountScaling with
        | none => fc.min / 100 * min w h + (fc.max / 100 * min w h - fc.min / 100 * min w h) * nv2
        | some wcs =>
          if wcs.enabled then
            (fc.min / 100 * min w h + (fc.max / 100 * min w h - fc.min / 100 * min w h) * nv2) *
              (if (ws.length : ℝ) ≤ wcs.threshold then wcs.maxScale
               else max wcs.minScale (wcs.maxScale * (Real.log wcs.threshold / Real.log (ws.length : ℝ))))
          else fc.min / 100 * min w h + (fc.max / 100 * min w h - fc.min / 100 * min w h) * nv2) := by
    rcases hwc : fc.wordCountScaling with _ | wcs
    · exact hbase
    · obtain ⟨hms, hxs⟩ := hwcs wcs hwc
      by_cases hen : wcs.enabled
      · simp only [hen, if_true]
        have hscale : (0 : ℝ) ≤
            (if (ws.length : ℝ) ≤ wcs.threshold then wcs.maxScale
             else max wcs.minScale (wcs.maxScale * (Real.log wcs.threshold / Real.log (ws.length : ℝ)))) := by
          by_cases hth : (ws.length : ℝ) ≤ wcs.threshold
          · simpa [hth] using hxs
          · simp only [hth, if_false]
            exact hms.trans (le_max_left _ _)
        exact mul_le_mul_of_nonneg_right hbase hscale
      · simp only [hen, if_false]
        exact hbase
  rcases hs : fc.scaleFactor with _ | sf
  · exact hstage1
  · have hsf0 := hsf sf hs
    by_cases h0 : sf = 0
    · simp only [h0, if_pos rfl]
      exact hstage1
    · simp only [if_neg h0]
      exact mul_le_mul_of_nonneg_right hstage1 hsf0

/-- The source divides by zero in `normalizeValue` only when the scale is
logarithmic and the whole value range sits at or below the `1e-6` epsilon;
whenever the list maximum exceeds the epsilon (or the scale is linear), the
NaN-explicit rendering returns `some` of the total-division model's value. -/
theorem normalizeValueChecked_eq (v mn mx : ℝ) (st : ScaleType) (hmnx : mn ≤ mx)
    (hst : st = ScaleType.logarithmic → (0.000001 : ℝ) < mx) :
    normalizeValueChecked v mn mx st = some (normalizeValue v mn mx st) := by
  by_cases he : mn = mx
  · simp [normalizeValueChecked, normalizeValue, he]
  · by_cases hv : v ≤ 0
    · simp [normalizeValueChecked, normalizeValue, he, hv]
    · cases st with
      | linear =>
        simp only [normalizeValueChecked, normalizeValue, if_neg he, if_neg hv, jsDiv]
        rw [if_neg (sub_ne_zero.mpr (Ne.symm he))]
      | logarithmic =>
        have hmx : (0.000001 : ℝ) < mx := hst rfl
        have hlt : mn < mx := lt_of_le_of_ne hmnx he
        have hden : Real.log (max 0.000001 mn) < Real.log (max 0.000001 mx) := by
          rw [show max (0.000001 : ℝ) mx = mx from max_eq_right hmx.le]
          exact Real.log_lt_log (lt_max_of_lt_left (by norm_num)) (max_lt hmx hlt)
        simp only [normalizeValueChecked, normalizeValue, if_neg he, if_neg hv, jsDiv]
        rw [if_neg (sub_ne_zero.mpr (ne_of_gt hden))]

/-- C8 (counterexample): for a word list whose values are `1e-9 < 1e-8`
under the logarithmic scale, all three logarithms clamp to `log(1e-6)`, so
the source computes `0 / 0` in `normalizeValue` for both words — the
normalized values are NaN (`none` in the NaN-explicit rendering), NaN
propagates through `calculateFontSize` (`Math.max(NaN, 8) = NaN`), and the
claimed comparison `fontSize_a >= fontSize_b` is false in JS. -/
theorem C8_font_sizing_monotone_counterexample :
    (1 : ℝ) / 1000000000 < 1 / 100000000 ∧
    listMinD (([⟨"a", 1 / 100000000⟩, ⟨"b", 1 / 1000000000⟩] : List WordCloudWord).map
      WordCloudWord.value) = 1 / 1000000000 ∧
    listMaxD (([⟨"a", 1 / 100000000⟩, ⟨"b", 1 / 1000000000⟩] : List WordCloudWord).map
      WordCloudWord.value) = 1 / 100000000 ∧
    normalizeValueChecked (1 / 100000000) (1 / 1000000000) (1 / 100000000)
      ScaleType.logarithmic = none ∧
    normalizeValueChecked (1 / 1000000000) (1 / 1000000000) (1 / 100000000)
      ScaleType.logarithmic = none := by
  have heval : ∀ v : ℝ, 0 < v → v ≤ 0.000001 →
      normalizeValueChecked v (1 / 1000000000) (1 / 100000000) ScaleType.logarithmic
        = none := by
    intro v hv0 hvε
    simp only [normalizeValueChecked]
    rw [if_neg (by norm_num), if_neg (not_le.mpr hv0)]
    rw [show max (0.000001 : ℝ) (1 / 100000000) = 0.000001 from max_eq_left (by norm_num),
      show max (0.000001 : ℝ) (1 / 1000000000) = 0.000001 from max_eq_left (by norm_num)]
    simp [jsDiv]
  refine ⟨by norm_num, ?_, ?_, heval _ (by norm_num) (by norm_num),
    heval _ (by norm_num) (by norm_num)⟩
  · simp only [listMinD, List.map_cons, List.map_nil, List.foldl_cons, List.foldl_nil]
    rw [min_eq_right (by norm_num)]
  · simp only [listMaxD, List.map_cons, List.map_nil, List.foldl_cons, List.foldl_nil]
    rw [max_eq_left (by norm_num)]

/-- C8 (amended): provided that in logarithmic mode the list's maximum
value exceeds the `1e-6` epsilon (so the source's `normalizeValue` divides
by a nonzero quantity for every word of the list — witnessed here by the
NaN-explicit rendering returning `some`), the composition of
`normalizeValue` (with the word list's own min/max) and `calculateFontSize`
is monotone non-decreasing in a word's value, over any fixed container,
word list and valid font configuration. -/
theorem C8_font_sizing_monotone_amended (w h : ℝ) (ws : List WordCloudWord)
    (fc : FontSizeConfig) (st : ScaleType) (a b : WordCloudWord)
    (hw : 0 ≤ w) (hh : 0 ≤ h) (hfc : fc.min ≤ fc.max)
    (hsf : ∀ sf, fc.scaleFactor = some sf → 0 ≤ sf)
    (hwcs : ∀ wcs, fc.wordCountScaling = some wcs → 0 ≤ wcs.minScale ∧ 0 ≤ wcs.maxScale)
    (ha : a ∈ ws) (hb : b ∈ ws) (hba : b.value ≤ a.value)
    (hlog : st = ScaleType.logarithmic →
      (0.000001 : ℝ) < listMaxD (ws.map WordCloudWord.value)) :
    (normalizeValueChecked b.value (listMinD (ws.map WordCloudWord.value))
        (listMaxD (ws.map WordCloudWord.value)) st =
      some (normalizeValue b.value (listMinD (ws.map WordCloudWord.value))
        (listMaxD (ws.map WordCloudWord.value)) st) ∧
     normalizeValueChecked a.value (listMinD (ws.map WordCloudWord.value))
        (listMaxD (ws.map WordCloudWord.value)) st =
      some (normalizeValue a.value (listMinD (ws.map WordCloudWord.value))
        (listMaxD (ws.map WordCloudWord.value)) st)) ∧
    calculateFontSize w h ws fc (normalizeValue b.value
        (listMinD (ws.map WordCloudWord.value)) (listMaxD (ws.map WordCloudWord.value)) st) ≤
      calculateFontSize w h ws fc (normalizeValue a.value
        (listMinD (ws.map WordCloudWord.value)) (listMaxD (ws.map WordCloudWord.value)) st) := by
  have hmnb : listMinD (ws.map WordCloudWord.value) ≤ b.value :=
    listMinD_le _ _ (List.mem_map_of_mem WordCloudWord.value hb)
  have hmxa : a.value ≤ listMaxD (ws.map WordCloudWord.value) :=
    le_listMaxD _ _ (List.mem_map_of_mem WordCloudWord.value ha)
  have hmnx : listMinD (ws.map WordCloudWord.value) ≤ listMaxD (ws.map WordCloudWord.value) :=
    le_trans hmnb (le_trans hba hmxa)
  refine ⟨⟨normalizeValueChecked_eq _ _ _ _ hmnx hlog,
    normalizeValueChecked_eq _ _ _ _ hmnx hlog⟩, ?_⟩
  apply calculateFontSize_mono w h ws fc hw hh hfc hsf hwcs
  exact normalizeValue_mono _ _ _ _ _ hmnb hba hmxa

/-- C8 (witness): division-free normalization and monotone font sizing for
the two-word list `[("a", 2), ("b", 1)]` in a 100 × 100 container under the
linear scale. -/
theorem C8_font_sizing_monotone_amended_witness :
    (normalizeValueChecked (WordCloudWord.mk "b" 1).value
        (listMinD (([⟨"a", 2⟩, ⟨"b", 1⟩] : List WordCloudWord).map WordCloudWord.value))
        (listMaxD (([⟨"a", 2⟩, ⟨"b", 1⟩] : List WordCloudWord).map WordCloudWord.value))
        ScaleType.linear =
      some (normalizeValue (WordCloudWord.mk "b" 1).value
        (listMinD (([⟨"a", 2⟩, ⟨"b", 1⟩] : List WordCloudWord).map WordCloudWord.value))
        (listMaxD (([⟨"a", 2⟩, ⟨"b", 1⟩] : List WordCloudWord).map WordCloudWord.value))
        ScaleType.linear) ∧
     normalizeValueChecked (WordCloudWord.mk "a" 2).value
        (listMinD (([⟨"a", 2⟩, ⟨"b", 1⟩] : List WordCloudWord).map WordCloudWord.value))
        (listMaxD (([⟨"a", 2⟩, ⟨"b", 1⟩] : List WordCloudWord).map WordCloudWord.value))
        ScaleType.linear =
      some (normalizeValue (WordCloudWord.mk "a" 2).value
        (listMinD (([⟨"a", 2⟩, ⟨"b", 1⟩] : List WordCloudWord).map WordCloudWord.value))
        (listMaxD (([⟨"a", 2⟩, ⟨"b", 1⟩] : List WordCloudWord).map WordCloudWord.value))
        ScaleType.linear)) ∧
    calculateFontSize 100 100 [⟨"a", 2⟩, ⟨"b", 1⟩] ⟨3, 15, none, none⟩
        (normalizeValue (WordCloudWord.mk "b" 1).value
          (listMinD (([⟨"a", 2⟩, ⟨"b", 1⟩] : List WordCloudWord).map WordCloudWord.value))
          (listMaxD (([⟨"a", 2⟩, ⟨"b", 1⟩] : List WordCloudWord).map WordCloudWord.value))
          ScaleType.linear) ≤
      calculateFontSize 100 100 [⟨"a", 2⟩, ⟨"b", 1⟩] ⟨3, 15, none, none⟩
        (normalizeValue (WordCloudWord.mk "a" 2).value
          (listMinD (([⟨"a", 2⟩, ⟨"b", 1⟩] : List WordCloudWord).map WordCloudWord.value))
          (listMaxD (([⟨"a", 2⟩, ⟨"b", 1⟩] : List WordCloudWord).map WordCloudWord.value))
          ScaleType.linear) :=
  C8_font_sizing_monotone_amended 100 100 [⟨"a", 2⟩, ⟨"b", 1⟩] ⟨3, 15, none, none⟩
    ScaleType.linear ⟨"a", 2⟩ ⟨"b", 1⟩ (by norm_num) (by norm_num) (by norm_num)
    (fun sf hsf => by cases hsf) (fun wcs hwcs => by cases hwcs)
    (by simp) (by simp) (by norm_num) (by intro hst; cases hst)

/-! ## Symmetry of the geometry tests -/

theorem doLineSegmentsIntersect_comm (p1 p2 p3 p4 : Point) :
    doLineSegmentsIntersect p1 p2 p3 p4 = doLineSegmentsIntersect p3 p4 p1 p2 := by
  simp only [doLineSegmentsIntersect]
  by_cases h : (p4.y - p3.y) * (p2.x - p1.x) - (p4.x - p3.x) * (p2.y - p1.y) = 0
  · rw [if_pos h, if_pos (by linear_combination -h)]
  · rw [if_neg h, if_neg (show ¬((p2.y - p1.y) * (p4.x - p3.x) -
        (p2.x - p1.x) * (p4.y - p3.y) = 0) from fun hc => h (by linear_combination -hc))]
    rw [decide_eq_decide]
    rw [show ((p2.x - p1.x) * (p3.y - p1.y) - (p2.y - p1.y) * (p3.x - p1.x)) /
          ((p2.y - p1.y) * (p4.x - p3.x) - (p2.x - p1.x) * (p4.y - p3.y)) =
        ((p2.x - p1.x) * (p1.y - p3.y) - (p2.y - p1.y) * (p1.x - p3.x)) /
          ((p4.y - p3.y) * (p2.x - p1.x) - (p4.x - p3.x) * (p2.y - p1.y)) by
      rw [show (p2.x - p1.x) * (p3.y - p1.y) - (p2.y - p1.y) * (p3.x - p1.x) =
          -((p2.x - p1.x) * (p1.y - p3.y) - (p2.y - p1.y) * (p1.x - p3.x)) by ring,
        show (p2.y - p1.y) * (p4.x - p3.x) - (p2.x - p1.x) * (p4.y - p3.y) =
          -((p4.y - p3.y) * (p2.x - p1.x) - (p4.x - p3.x) * (p2.y - p1.y)) by ring,
        neg_div_neg_eq]]
    rw [show ((p4.x - p3.x) * (p3.y - p1.y) - (p4.y - p3.y) * (p3.x - p1.x)) /
          ((p2.y - p1.y) * (p4.x - p3.x) - (p2.x - p1.x) * (p4.y - p3.y)) =
        ((p4.x - p3.x) * (p1.y - p3.y) - (p4.y - p3.y) * (p1.x - p3.x)) /
          ((p4.y - p3.y) * (p2.x - p1.x) - (p4.x - p3.x) * (p2.y - p1.y)) by
      rw [show (p4.x - p3.x) * (p3.y - p1.y) - (p4.y - p3.y) * (p3.x - p1.x) =
          -((p4.x - p3.x) * (p1.y - p3.y) - (p4.y - p3.y) * (p1.x - p3.x)) by ring,
        show (p2.y - p1.y) * (p4.x - p3.x) - (p2.x - p1.x) * (p4.y - p3.y) =
          -((p4.y - p3.y) * (p2.x - p1.x) - (p4.x - p3.x) * (p2.y - p1.y)) by ring,
        neg_div_neg_eq]]
    tauto

theorem aabbMiss_comm (b1 b2 : BoundingBox) : aabbMiss b1 b2 = aabbMiss b2 b1 := by
  simp only [aabbMiss, gt_iff_lt]
  rw [decide_eq_decide]
  tauto

theorem edgeHit_comm (b1 b2 : BoundingBox) : edgeHit b1 b2 = edgeHit b2 b1 := by
  simp only [edgeHit]
  rw [Bool.eq_iff_iff]
  simp only [List.any_eq_true]
  constructor
  · rintro ⟨e1, he1, e2, he2, h⟩
    refine ⟨e2, he2, e1, he1, ?_⟩
    rw [doLineSegmentsIntersect_comm]
    exact h
  · rintro ⟨e2, he2, e1, he1, h⟩
    refine ⟨e1, he1, e2, he2, ?_⟩
    rw [doLineSegmentsIntersect_comm]
    exact h

theorem checkBoundingBoxesIntersect_comm (b1 b2 : BoundingBox) :
    checkBoundingBoxesIntersect b1 b2 = checkBoundingBoxesIntersect b2 b1 := by
  simp only [checkBoundingBoxesIntersect]
  rw [aabbMiss_comm, edgeHit_comm]
  by_cases h1 : aabbMiss b2 b1 = true
  · rw [if_pos h1, if_pos h1]
  · rw [if_neg h1, if_neg h1]
    by_cases h2 : edgeHit b2 b1 = true
    · rw [if_pos h2, if_pos h2]
    · rw [if_neg h2, if_neg h2, Bool.or_comm]

/-- C10: the polygon overlap test `checkBoundingBoxesIntersect` is symmetric
in its two bounding boxes. -/
theorem C10_intersect_symmetric (b1 b2 : BoundingBox) :
    checkBoundingBoxesIntersect b1 b2 = checkBoundingBoxesIntersect b2 b1 :=
  checkBoundingBoxesIntersect_comm b1 b2

/-! ## The attempt loop: equations and invariants -/

theorem placeLoop_zero (ctx : PlaceCtx) (att : ℕ) (best : Option BestCand) :
    placeLoop ctx 0 att best = ⟨att, best, false⟩ := rfl

theorem placeLoop_succ (ctx : PlaceCtx) (fuel att : ℕ) (best : Option BestCand) :
    placeLoop ctx (fuel + 1) att best =
      if candAccept ctx att then
        if candDist ctx att < ctx.width * 0.1 ∨ (att : ℝ) > (ctx.maxA : ℝ) * 0.8 then
          ⟨att + 1, bestUpdate best (candDist ctx att) (candPos ctx att) (candBox ctx att), true⟩
        else placeLoop ctx fuel (att + 1)
          (bestUpdate best (candDist ctx att) (candPos ctx att) (candBox ctx att))
      else placeLoop ctx fuel (att + 1) best := rfl

theorem inBoundsB_iff (b : BoundingBox) (m w h : ℝ) :
    inBoundsB b m w h = true ↔ BoxWithin b m w h := by
  simp only [inBoundsB, pointInB, BoxWithin, PointWithin, Bool.and_eq_true, decide_eq_true_eq]
  tauto

theorem overlapAny_eq_false_iff (placed : List ProcessedWord) (box : BoundingBox) :
    overlapAny placed box = false ↔
      ∀ pw ∈ placed, ∀ b2, pw.boundingBox = some b2 →
        checkBoundingBoxesIntersect box b2 = false := by
  rw [overlapAny, List.any_eq_false]
  constructor
  · intro h pw hmem b2 hb2
    have h2 := h pw hmem
    rw [hb2] at h2
    simpa using h2
  · intro h pw hmem
    rcases hb : pw.boundingBox with _ | b2
    · simp [hb]
    · simpa using h pw hmem b2 hb

theorem candAccept_good (ctx : PlaceCtx) (i : ℕ) (h : candAccept ctx i = true) :
    GoodBox ctx.placedWords (ctxMargin ctx) ctx.width ctx.height (candBox ctx i) := by
  simp only [candAccept, Bool.and_eq_true, Bool.not_eq_true'] at h
  exact ⟨h.1, h.2⟩

theorem placeLoop_best_good (ctx : PlaceCtx) :
    ∀ (fuel att : ℕ) (best : Option BestCand),
      (∀ b0, best = some b0 →
        GoodBox ctx.placedWords (ctxMargin ctx) ctx.width ctx.height b0.box) →
      ∀ b, (placeLoop ctx fuel att best).best = some b →
        GoodBox ctx.placedWords (ctxMargin ctx) ctx.width ctx.height b.box := by
  intro fuel
  induction fuel with
  | zero =>
    intro att best hb b hres
    rw [placeLoop_zero] at hres
    exact hb b hres
  | succ fuel ih =>
    intro att best hb b hres
    rw [placeLoop_succ] at hres
    by_cases hacc : candAccept ctx att = true
    · rw [if_pos hacc] at hres
      have hb2 : ∀ b0, bestUpdate best (candDist ctx att) (candPos ctx att) (candBox ctx att) =
          some b0 → GoodBox ctx.placedWords (ctxMargin ctx) ctx.width ctx.height b0.box := by
        intro b0 hb0
        rcases best with _ | bOld
        · simp only [bestUpdate] at hb0
          cases hb0
          exact candAccept_good ctx att hacc
        · simp only [bestUpdate] at hb0
          by_cases hd : candDist ctx att < bOld.distance
          · rw [if_pos hd] at hb0
            cases hb0
            exact candAccept_good ctx att hacc
          · rw [if_neg hd] at hb0
            cases hb0
            exact hb _ rfl
      by_cases hstop : candDist ctx att < ctx.width * 0.1 ∨ (att : ℝ) > (ctx.maxA : ℝ) * 0.8
      · rw [if_pos hstop] at hres
        exact hb2 b hres
      · rw [if_neg hstop] at hres
        exact ih (att + 1) _ hb2 b hres
    · rw [if_neg hacc] at hres
      exact ih (att + 1) best hb b hres

theorem placeLoop_early_iff (ctx : PlaceCtx) :
    ∀ (fuel att : ℕ) (best : Option BestCand),
      (placeLoop ctx fuel att best).attempts < att + fuel ↔
        ∃ i, att ≤ i ∧ i + 1 < att + fuel ∧ GoodStep ctx i ∧
          ∀ j, att ≤ j → j < i → ¬ GoodStep ctx j := by
  intro fuel
  induction fuel with
  | zero =>
    intro att best
    rw [placeLoop_zero]
    dsimp only
    constructor
    · intro h
      omega
    · rintro ⟨i, h1, h2, _, _⟩
      omega
  | succ fuel ih =>
    intro att best
    rw [placeLoop_succ]
    by_cases hacc : candAccept ctx att = true
    · rw [if_pos hacc]
      by_cases hstop : candDist ctx att < ctx.width * 0.1 ∨ (att : ℝ) > (ctx.maxA : ℝ) * 0.8
      · rw [if_pos hstop]
        dsimp only
        constructor
        · intro h
          exact ⟨att, le_rfl, by omega, ⟨hacc, hstop⟩,
            fun j hj1 hj2 => absurd hj2 (Nat.not_lt.mpr hj1)⟩
        · rintro ⟨i, hi1, hi2, hgood, hfirst⟩
          rcases eq_or_lt_of_le hi1 with rfl | hlt
          · omega
          · exact absurd ⟨hacc, hstop⟩ (hfirst att le_rfl hlt)
      · rw [if_neg hstop]
        have hng : ¬ GoodStep ctx att := fun hg => hstop hg.2
        rw [show att + (fuel + 1) = att + 1 + fuel by omega, ih (att + 1)]
        constructor
        · rintro ⟨i, hi1, hi2, hgood, hfirst⟩
          refine ⟨i, by omega, by omega, hgood, fun j hj1 hj2 => ?_⟩
          rcases eq_or_lt_of_le hj1 with rfl | hlt2
          · exact hng
          · exact hfirst j hlt2 hj2
        · rintro ⟨i, hi1, hi2, hgood, hfirst⟩
          have hne : i ≠ att := fun he => hng (he ▸ hgood)
          exact ⟨i, by omega, by omega, hgood, fun j hj1 hj2 => hfirst j (by omega) hj2⟩
    · rw [if_neg hacc]
      have hng : ¬ GoodStep ctx att := fun hg => hacc hg.1
      rw [show att + (fuel + 1) = att + 1 + fuel by omega, ih (att + 1)]
      constructor
      · rintro ⟨i, hi1, hi2, hgood, hfirst⟩
        refine ⟨i, by omega, by omega, hgood, fun j hj1 hj2 => ?_⟩
        rcases eq_or_lt_of_le hj1 with rfl | hlt2
        · exact hng
        · exact hfirst j hlt2 hj2
      · rintro ⟨i, hi1, hi2, hgood, hfirst⟩
        have hne : i ≠ att := fun he => hng (he ▸ hgood)
        exact ⟨i, by omega, by omega, hgood, fun j hj1 hj2 => hfirst j (by omega) hj2⟩

/-- C3 (amended): a word's attempt loop terminates early (strictly fewer than
`maxAttempts` attempts consumed) exactly when some attempt is the first whose
candidate is accepted and satisfies the source's stop condition — distance to
center below `width * 0.1` (the container WIDTH, not the shorter dimension)
or more than 80% of `maxAttempts` consumed — with room left in the budget. -/
theorem C3_early_accept_amended (ctx : PlaceCtx) :
    (placeWord ctx).attempts < ctx.maxA ↔
      ∃ i, i + 1 < ctx.maxA ∧ GoodStep ctx i ∧ ∀ j, j < i → ¬ GoodStep ctx j := by
  have h := placeLoop_early_iff ctx ctx.maxA 0 none
  rw [zero_add] at h
  simp only [placeWord]
  rw [h]
  constructor
  · rintro ⟨i, _, h2, h3, h4⟩
    exact ⟨i, h2, h3, fun j hj => h4 j (Nat.zero_le j) hj⟩
  · rintro ⟨i, h2, h3, h4⟩
    exact ⟨i, Nat.zero_le i, h2, h3, fun j _ hj => h4 j hj⟩

/-! ## The orchestrator invariants: no overlap, in bounds -/

theorem processWordsAux_inv (width height : ℝ) (fontConfig : FontSizeConfig)
    (pc : PackingConfig) (rm : RotationMode) (st : ScaleType) (measure : String → ℝ → ℝ)
    (rnd : ℕ → ℝ) (allWords : List WordCloudWord) (minV maxV : ℝ) (maxA : ℕ) :
    ∀ (rest : List WordCloudWord) (acc : List ProcessedWord) (off : ℕ),
      List.Pairwise NoOverlapPW acc →
      (∀ pw ∈ acc, ∀ b, pw.boundingBox = some b →
        BoxWithin b (min width height * (0.02 * pc.factor)) width height) →
      List.Pairwise NoOverlapPW (processWordsAux width height fontConfig pc rm st measure rnd
        allWords minV maxV maxA rest acc off) ∧
      ∀ pw ∈ processWordsAux width height fontConfig pc rm st measure rnd allWords minV maxV
        maxA rest acc off, ∀ b, pw.boundingBox = some b →
          BoxWithin b (min width height * (0.02 * pc.factor)) width height := by
  intro rest
  induction rest with
  | nil =>
    intro acc off h1 h2
    simp only [processWordsAux]
    exact ⟨h1, h2⟩
  | cons word rest ih =>
    intro acc off h1 h2
    simp only [processWordsAux]
    rcases hbest : (placeWord (wordCtx width height fontConfig pc rm st measure rnd allWords
        minV maxV maxA acc off word)).best with _ | b
    · simp only [pushPlaced]
      exact ih acc _ h1 h2
    · simp only [pushPlaced]
      have hgood : GoodBox acc (min width height * (0.02 * pc.factor)) width height b.box := by
        have := placeLoop_best_good (wordCtx width height fontConfig pc rm st measure rnd
          allWords minV maxV maxA acc off word)
          (wordCtx width height fontConfig pc rm st measure rnd allWords minV maxV maxA acc
            off word).maxA 0 none (fun b0 hb0 => by cases hb0) b hbest
        exact this
      have hover : ∀ pw ∈ acc, ∀ b2, pw.boundingBox = some b2 →
          checkBoundingBoxesIntersect b.box b2 = false :=
        (overlapAny_eq_false_iff acc b.box).mp hgood.1
      have hwithin : BoxWithin b.box (min width height * (0.02 * pc.factor)) width height :=
        (inBoundsB_iff _ _ _ _).mp hgood.2
      apply ih
      · rw [List.pairwise_append]
        refine ⟨h1, List.pairwise_singleton _ _, ?_⟩
        intro a ha c hc
        rw [List.mem_singleton] at hc
        subst hc
        intro ba bb hba hbb
        have hbb2 : bb = b.box := by
          simpa [mkPlaced] using hbb.symm
        subst hbb2
        have hchk := hover a ha ba hba
        refine ⟨?_, hchk⟩
        rw [checkBoundingBoxesIntersect_comm]
        exact hchk
      · intro pw hpw bb hbb
        rcases List.mem_append.mp hpw with hmem | hmem
        · exact h2 pw hmem bb hbb
        · rw [List.mem_singleton] at hmem
          subst hmem
          have hbb2 : bb = b.box := by
            simpa [mkPlaced] using hbb.symm
          subst hbb2
          exact hwithin

/-- C1: in every layout `processWords` produces — over all word lists,
container dimensions, font and packing configurations, rotation modes, scale
types, text measurers and random streams — the bounding boxes of any two
distinct placed words do not intersect, in either argument order of
`checkBoundingBoxesIntersect`. -/
theorem C1_no_overlap (inputWords : List WordCloudWord) (width height : ℝ)
    (fontConfig : FontSizeConfig) (pc : PackingConfig) (rm : RotationMode) (st : ScaleType)
    (measure : String → ℝ → ℝ) (rnd : ℕ → ℝ) :
    List.Pairwise NoOverlapPW
      (processWords inputWords width height fontConfig pc rm st measure rnd) := by
  simp only [processWords]
  exact (processWordsAux_inv width height fontConfig pc rm st measure rnd
    (sortByValueDesc inputWords)
    (listMinD ((sortByValueDesc inputWords).map WordCloudWord.value))
    (listMaxD ((sortByValueDesc inputWords).map WordCloudWord.value))
    (resolveMaxAttempts pc) (sortByValueDesc inputWords) [] 0 List.Pairwise.nil
    (by intro pw hpw; cases hpw)).1

/-- C2: every corner of every placed bounding box lies inside the margin
frame `[margin, dimension - margin]` on both axes, where
`margin = min(width, height) * (0.02 * packingConfig.factor)` — over all
inputs, configurations and random streams. -/
theorem C2_in_bounds (inputWords : List WordCloudWord) (width height : ℝ)
    (fontConfig : FontSizeConfig) (pc : PackingConfig) (rm : RotationMode) (st : ScaleType)
    (measure : String → ℝ → ℝ) (rnd : ℕ → ℝ) :
    (processWords inputWords width height fontConfig pc rm st measure rnd).Forall
      fun pw => ∀ b, pw.boundingBox = some b →
        BoxWithin b (min width height * (0.02 * pc.factor)) width height := by
  rw [List.forall_iff_forall_mem]
  simp only [processWords]
  exact (processWordsAux_inv width height fontConfig pc rm st measure rnd
    (sortByValueDesc inputWords)
    (listMinD ((sortByValueDesc inputWords).map WordCloudWord.value))
    (listMaxD ((sortByValueDesc inputWords).map WordCloudWord.value))
    (resolveMaxAttempts pc) (sortByValueDesc inputWords) [] 0 List.Pairwise.nil
    (by intro pw hpw; cases hpw)).2

/-! ## Empty input and statistics -/

theorem processWords_nil (width height : ℝ) (fontConfig : FontSizeConfig) (pc : PackingConfig)
    (rm : RotationMode) (st : ScaleType) (measure : String → ℝ → ℝ) (rnd : ℕ → ℝ) :
    processWords [] width height fontConfig pc rm st measure rnd = [] := by
  simp only [processWords, sortByValueDesc, List.insertionSort, processWordsAux]

/-- C4 (amended): the empty word list yields an empty placed list and
statistics with `total = 0` and `placed = 0`; but `avgAttempts` is the
unguarded division `0 / 0` — NaN under JS semantics, modelled as `none` —
rather than a defined zero value. -/
theorem C4_empty_layout_amended (width height : ℝ) (fontConfig : FontSizeConfig)
    (pc : PackingConfig) (rm : RotationMode) (st : ScaleType) (measure : String → ℝ → ℝ)
    (rnd : ℕ → ℝ) :
    processWords [] width height fontConfig pc rm st measure rnd = [] ∧
    (calculateLayoutStats (processWords [] width height fontConfig pc rm st measure rnd)
        0 [] width height).total = 0 ∧
    (calculateLayoutStats (processWords [] width height fontConfig pc rm st measure rnd)
        0 [] width height).placed = 0 ∧
    (calculateLayoutStats (processWords [] width height fontConfig pc rm st measure rnd)
        0 [] width height).avgAttempts = none := by
  have h0 := processWords_nil width height fontConfig pc rm st measure rnd
  refine ⟨h0, ?_, ?_, ?_⟩ <;> rw [h0] <;> simp [calculateLayoutStats, jsDiv]

/-- C4 (counterexample): at the concrete empty input the claim's "defined
zero" for `averageAttempts` fails — the statistic is the result of the
division `0 / 0` (NaN in JS, `none` here), not `0`. -/
theorem C4_empty_layout_counterexample :
    (calculateLayoutStats (processWords [] 100 100 DEFAULT_FONT_CONFIG DEFAULT_PACKING_CONFIG
        RotationMode.any ScaleType.linear (fun _ _ => 0) (fun _ => 0)) 0 [] 100 100).avgAttempts
      = none := by
  rw [processWords_nil]
  simp [calculateLayoutStats, jsDiv]

theorem coveredAreaSum_eq (pws : List ProcessedWord) :
    coveredAreaSum pws = ((pws.filterMap ProcessedWord.boundingBox).map codeBoxArea).sum := by
  suffices h : ∀ (l : List ProcessedWord) (a : ℝ),
      (l.foldl
        (fun area w =>
          match w.boundingBox with
          | none => area
          | some box => area + codeBoxArea box)
        a) = a + ((l.filterMap ProcessedWord.boundingBox).map codeBoxArea).sum by
    simpa [coveredAreaSum] using h pws 0
  intro l
  induction l with
  | nil => intro a; simp
  | cons w l ih =>
    intro a
    rcases hb : w.boundingBox with _ | box
    · simp [List.foldl_cons, hb, ih, List.filterMap_cons]
    · simp only [List.foldl_cons, hb, ih, List.filterMap_cons, List.map_cons, List.sum_cons]
      ring

/-- C9 (amended): when `width * height ≠ 0`, the coverage statistic equals
the sum over the placed boxes of `|(p0.x - p2.x) * (p0.y - p2.y)|` — the
area of the axis-aligned rectangle spanned by each box's diagonal corners,
which coincides with the box's axis-aligned hull area only for unrotated
boxes — divided by `width * height`, multiplied by 100, and rounded to one
decimal place. -/
theorem C9_coverage_amended (pws : List ProcessedWord) (n : ℕ) (atts : List (String × ℝ))
    (width height : ℝ) (hwh : width * height ≠ 0) :
    (calculateLayoutStats pws n atts width height).coverage =
      some (jsRound (((pws.filterMap ProcessedWord.boundingBox).map codeBoxArea).sum /
        (width * height) * 100 * 10) / 10) := by
  simp only [calculateLayoutStats, jsDiv, if_neg hwh, Option.map_some', coveredAreaSum_eq]
  have harg : ((pws.filterMap ProcessedWord.boundingBox).map codeBoxArea).sum /
        (width * height) * 1000 =
      ((pws.filterMap ProcessedWord.boundingBox).map codeBoxArea).sum /
        (width * height) * 100 * 10 := by
    ring
  rw [harg]

/-- C9 (witness): the amended coverage formula at the empty layout in a
10 × 10 container. -/
theorem C9_coverage_amended_witness :
    (calculateLayoutStats [] 0 [] 10 10).coverage =
      some (jsRound (((([] : List ProcessedWord).filterMap ProcessedWord.boundingBox).map
        codeBoxArea).sum / ((10 : ℝ) * 10) * 100 * 10) / 10) :=
  C9_coverage_amended [] 0 [] 10 10 (by norm_num)

/-- C9 (counterexample): for the 45-degree box `boxC9` in a 10 × 10
container the source computes coverage 0 — its diagonal corners share an x
coordinate — while the spec's axis-aligned-area formula gives 4. -/
theorem C9_coverage_counterexample :
    (calculateLayoutStats [pwC9] 1 [] 10 10).coverage = some 0 ∧
    coverageSpecAabb [pwC9] 10 10 = 4 ∧
    (calculateLayoutStats [pwC9] 1 [] 10 10).coverage ≠
      some (coverageSpecAabb [pwC9] 10 10) := by
  have hcode : (calculateLayoutStats [pwC9] 1 [] 10 10).coverage = some 0 := by
    simp only [calculateLayoutStats, coveredAreaSum, pwC9, boxC9, codeBoxArea, jsDiv]
    rw [if_neg (by norm_num)]
    simp only [Option.map_some']
    norm_num [jsRound]
  have hspec : coverageSpecAabb [pwC9] 10 10 = 4 := by
    have hbox : (([pwC9] : List ProcessedWord).filterMap ProcessedWord.boundingBox) =
        [boxC9] := rfl
    have harea : aabbArea boxC9 = 4 := by
      simp only [aabbArea, boxMaxX, boxMinX, boxMaxY, boxMinY, boxC9]
      norm_num [max_def, min_def]
    simp only [coverageSpecAabb, hbox, List.map_cons, List.map_nil, List.sum_cons,
      List.sum_nil, harea]
    rw [show (4 : ℝ) + 0 = 4 by norm_num, show (4 : ℝ) / (10 * 10) * 100 * 10 = 40 by norm_num]
    simp only [jsRound]
    rw [show ⌊(40 : ℝ) + 1 / 2⌋ = 40 by
      rw [Int.floor_eq_iff]
      constructor <;> norm_num]
    norm_num
  refine ⟨hcode, hspec, ?_⟩
  rw [hcode, hspec]
  simp

/-! ## C5: unplaceable words are dropped, yet the component's attempts map
records 0 for every word -/

theorem wordCtx_def (width height : ℝ) (fc : FontSizeConfig) (pc : PackingConfig)
    (rm : RotationMode) (st : ScaleType) (measure : String → ℝ → ℝ) (rnd : ℕ → ℝ)
    (allWords : List WordCloudWord) (minV maxV : ℝ) (maxA : ℕ) (acc : List ProcessedWord)
    (off : ℕ) (word : WordCloudWord) :
    wordCtx width height fc pc rm st measure rnd allWords minV maxV maxA acc off word =
      ⟨width, height, normalizeValue word.value minV maxV st,
        measure word.text (calculateFontSize width height allWords fc
          (normalizeValue word.value minV maxV st)),
        calculateFontSize width height allWords fc (normalizeValue word.value minV maxV st),
        pc, rm, maxA, acc, rnd, off⟩ := rfl

theorem placeLoop_none_accept (ctx : PlaceCtx) (hnone : ∀ i, candAccept ctx i = false) :
    ∀ (fuel att : ℕ) (best : Option BestCand),
      placeLoop ctx fuel att best = ⟨att + fuel, best, false⟩ := by
  intro fuel
  induction fuel with
  | zero =>
    intro att best
    rw [placeLoop_zero]
    simp
  | succ fuel ih =>
    intro att best
    rw [placeLoop_succ, if_neg (by simp [hnone att]), ih (att + 1) best,
      show att + 1 + fuel = att + (fuel + 1) by omega]

theorem candAccept_eq_false_of_inB (ctx : PlaceCtx) (i : ℕ)
    (h : inBoundsB (candBox ctx i) (ctxMargin ctx) ctx.width ctx.height = false) :
    candAccept ctx i = false := by
  simp only [candAccept, h, Bool.and_false]

theorem box_edge_sq (cx cy w h rot sp : ℝ) :
    ((getRotatedBoundingBox cx cy w h rot sp).p0.x -
        (getRotatedBoundingBox cx cy w h rot sp).p1.x) ^ 2 +
      ((getRotatedBoundingBox cx cy w h rot sp).p0.y -
        (getRotatedBoundingBox cx cy w h rot sp).p1.y) ^ 2 =
      (w + sp * 2) ^ 2 := by
  have hc := Real.cos_sq_add_sin_sq (rot * Real.pi / 180)
  simp only [getRotatedBoundingBox]
  linear_combination ((w + sp * 2) ^ 2) * hc

theorem wide_box_not_within (cx cy hgt rot sp : ℝ) (hsp : 0 ≤ sp) :
    ¬ BoxWithin (getRotatedBoundingBox cx cy 1000 hgt rot sp) 2 100 100 := by
  intro hbw
  have hsq := box_edge_sq cx cy 1000 hgt rot sp
  simp only [BoxWithin, PointWithin] at hbw
  obtain ⟨⟨h0a, h0b, h0c, h0d⟩, ⟨h1a, h1b, h1c, h1d⟩, _, _⟩ := hbw
  have dx1 : (getRotatedBoundingBox cx cy 1000 hgt rot sp).p0.x -
      (getRotatedBoundingBox cx cy 1000 hgt rot sp).p1.x ≤ 96 := by linarith
  have dx2 : -(96 : ℝ) ≤ (getRotatedBoundingBox cx cy 1000 hgt rot sp).p0.x -
      (getRotatedBoundingBox cx cy 1000 hgt rot sp).p1.x := by linarith
  have dy1 : (getRotatedBoundingBox cx cy 1000 hgt rot sp).p0.y -
      (getRotatedBoundingBox cx cy 1000 hgt rot sp).p1.y ≤ 96 := by linarith
  have dy2 : -(96 : ℝ) ≤ (getRotatedBoundingBox cx cy 1000 hgt rot sp).p0.y -
      (getRotatedBoundingBox cx cy 1000 hgt rot sp).p1.y := by linarith
  have hx : ((getRotatedBoundingBox cx cy 1000 hgt rot sp).p0.x -
      (getRotatedBoundingBox cx cy 1000 hgt rot sp).p1.x) ^ 2 ≤ 9216 := by nlinarith
  have hy : ((getRotatedBoundingBox cx cy 1000 hgt rot sp).p0.y -
      (getRotatedBoundingBox cx cy 1000 hgt rot sp).p1.y) ^ 2 ≤ 9216 := by nlinarith
  have hW2 : ((1000 : ℝ) + sp * 2) ^ 2 ≥ 1000000 := by nlinarith
  linarith

theorem ctx_wide_unplaceable (ctx : PlaceCtx) (hww : ctx.wordWidth = 1000)
    (hw : ctx.width = 100) (hh : ctx.height = 100) (hmrg : ctxMargin ctx = 2)
    (hsp : 0 ≤ candSpacing ctx) (i : ℕ) : candAccept ctx i = false := by
  apply candAccept_eq_false_of_inB
  rw [Bool.eq_false_iff, Ne, inBoundsB_iff, hmrg, hw, hh]
  rw [show candBox ctx i = getRotatedBoundingBox (candPos ctx i).x (candPos ctx i).y
      ctx.wordWidth ctx.wordHeight (candPos ctx i).rotation (candSpacing ctx) from rfl, hww]
  exact wide_box_not_within _ _ _ _ _ hsp

theorem getWordSpacing_nonneg (ww wh : ℝ) (pc : PackingConfig) (nv : ℝ)
    (hms : 0 ≤ pc.minSpacing) (hf : 0 ≤ pc.factor) (hnv : 0 ≤ nv) :
    0 ≤ getWordSpacing ww wh pc nv := by
  have hbase : (0 : ℝ) ≤ max pc.minSpacing (min ww wh * 0.15) :=
    le_trans hms (le_max_left _ _)
  simp only [getWordSpacing]
  cases hstr : pc.strategy with
  | uniform => exact mul_nonneg hbase hf
  | adaptive => exact mul_nonneg (mul_nonneg hbase hf) (by linarith)

/-- C5 (code a bug): a word measured 1000 units wide can never satisfy the
in-bounds check of a 100 × 100 container, so `processWords` drops it for
every random stream; yet the attempts map the `WordCloud` component builds
(`attempts[word.text] = 0` for each word) records 0 — not the consumed
`maxAttempts = 500` the claim (and the earlier variant in
`src/unnamed/part_000`) describes. -/
theorem C5_attempts_map_all_zero (rnd : ℕ → ℝ) :
    processWords [wordC5] 100 100 fcC5 pcC5 RotationMode.any ScaleType.linear
        (fun _ _ => 1000) rnd = [] ∧
      componentAttempts [wordC5] = [("w", 0)] := by
  refine ⟨?_, rfl⟩
  simp only [processWords, sortByValueDesc]
  rw [show List.insertionSort (fun a b => b.value ≤ a.value) [wordC5] = [wordC5] from rfl]
  simp only [processWordsAux]
  have hnone : ∀ i, candAccept (wordCtx 100 100 fcC5 pcC5 RotationMode.any ScaleType.linear
      (fun _ _ => 1000) rnd [wordC5] (listMinD ([wordC5].map WordCloudWord.value))
      (listMaxD ([wordC5].map WordCloudWord.value)) (resolveMaxAttempts pcC5) [] 0 wordC5) i
      = false := by
    intro i
    apply ctx_wide_unplaceable
    · rfl
    · rfl
    · rfl
    · simp only [ctxMargin, wordCtx_def]
      norm_num [pcC5]
    · simp only [candSpacing, wordCtx_def]
      apply getWordSpacing_nonneg
      · norm_num [pcC5]
      · norm_num [pcC5]
      · norm_num [normalizeValue, wordC5, listMinD, listMaxD, List.map_cons, List.map_nil]
  simp only [placeWord]
  rw [placeLoop_none_accept _ hnone]
  simp [pushPlaced]

/-! ## C3: the stop condition measures the container width, not the shorter
dimension -/

theorem spiralAngle_zero : spiralAngle 0 500 pcC3 = 0 := by
  simp only [spiralAngle]
  norm_num

theorem spiralRadius_ctxC3 : spiralRadius 0 500 (1 / 2) 1000 100 pcC3 = 10 := by
  simp only [spiralRadius, pcC3]
  rw [show -((1 - 1 / 2 * 0.5) * ((((0 : ℕ) : ℝ)) / (((500 : ℕ) : ℝ)) * 1.5) * (1 / 2)) * 3
      = 0 by norm_num]
  rw [Real.exp_zero]
  rw [show min (1000 : ℝ) 100 = 100 from min_eq_right (by norm_num)]
  norm_num

theorem spiralRotation_ctxC3 :
    spiralRotation 0 500 pcC3 RotationMode.any (1 / 2) (1 / 2) = 90 := by
  simp only [spiralRotation, pcC3]
  norm_num

theorem candPos_ctxC3 : candPos ctxC3 0 = ⟨510, 50, 90⟩ := by
  have hcp : candPos ctxC3 0 =
      getSpiralPosition 0 500 (1 / 2) 1000 100 pcC3 RotationMode.any (1 / 2) (1 / 2) := rfl
  rw [hcp]
  simp only [getSpiralPosition]
  rw [spiralAngle_zero, spiralRadius_ctxC3, spiralRotation_ctxC3, Real.cos_zero, Real.sin_zero]
  norm_num [SpiralPos.mk.injEq]

theorem candSpacing_ctxC3 : candSpacing ctxC3 = 4 := by
  have h : candSpacing ctxC3 = getWordSpacing 10 9 pcC3 (1 / 2) := rfl
  rw [h]
  simp only [getWordSpacing, pcC3]
  rw [show min (10 : ℝ) 9 = 9 from min_eq_right (by norm_num)]
  rw [show max (2 : ℝ) (9 * 0.15) = 2 from max_eq_left (by norm_num)]
  norm_num

theorem candBox_ctxC3 :
    candBox ctxC3 0 = ⟨⟨518.5, 41⟩, ⟨518.5, 59⟩, ⟨501.5, 59⟩, ⟨501.5, 41⟩⟩ := by
  have h : candBox ctxC3 0 = getRotatedBoundingBox (candPos ctxC3 0).x (candPos ctxC3 0).y
      10 9 (candPos ctxC3 0).rotation (candSpacing ctxC3) := rfl
  rw [h, candPos_ctxC3, candSpacing_ctxC3]
  simp only [getRotatedBoundingBox]
  rw [show (90 : ℝ) * Real.pi / 180 = Real.pi / 2 by ring, Real.cos_pi_div_two,
    Real.sin_pi_div_two]
  norm_num [BoundingBox.mk.injEq, Point.mk.injEq]

theorem candAccept_ctxC3 : candAccept ctxC3 0 = true := by
  have hover : overlapAny ctxC3.placedWords (candBox ctxC3 0) = false := by
    rw [show ctxC3.placedWords = [] from rfl]
    simp [overlapAny]
  have hmrg : ctxMargin ctxC3 = 4 := by
    simp only [ctxMargin, ctxC3, pcC3]
    rw [show min (1000 : ℝ) 100 = 100 from min_eq_right (by norm_num)]
    norm_num
  have hinb : inBoundsB (candBox ctxC3 0) (ctxMargin ctxC3) ctxC3.width ctxC3.height
      = true := by
    rw [candBox_ctxC3, hmrg, show ctxC3.width = (1000 : ℝ) from rfl,
      show ctxC3.height = (100 : ℝ) from rfl]
    apply (inBoundsB_iff _ _ _ _).mpr
    simp only [BoxWithin, PointWithin]
    norm_num
  simp only [candAccept, hover, hinb, Bool.not_false, Bool.and_self]

theorem candDist_ctxC3 : candDist ctxC3 0 = 10 := by
  simp only [candDist]
  rw [candPos_ctxC3, show ctxC3.width = (1000 : ℝ) from rfl,
    show ctxC3.height = (100 : ℝ) from rfl]
  rw [show (SpiralPos.mk 510 50 90).x = (510 : ℝ) from rfl,
    show (SpiralPos.mk 510 50 90).y = (50 : ℝ) from rfl]
  rw [show ((510 : ℝ) - 1000 / 2) ^ 2 + ((50 : ℝ) - 100 / 2) ^ 2 = 10 ^ 2 by norm_num]
  exact Real.sqrt_sq (by norm_num)

theorem placeWord_ctxC3 :
    placeWord ctxC3 = ⟨1, some ⟨10, candPos ctxC3 0, candBox ctxC3 0⟩, true⟩ := by
  have h : placeWord ctxC3 = placeLoop ctxC3 (499 + 1) 0 none := rfl
  rw [h, placeLoop_succ, if_pos candAccept_ctxC3, candDist_ctxC3]
  rw [if_pos (Or.inl (by rw [show ctxC3.width = (1000 : ℝ) from rfl]; norm_num))]
  rfl

/-- C3 (counterexample): in the 1000 × 100 container of `ctxC3` the loop
stops at its very first attempt (1 of 500 attempts consumed) because the
accepted candidate is 10 units from center and `10 < width * 0.1 = 100`;
yet the claim's condition is false there — the distance is not below
`min(width, height) * 0.1 = 10`, and 0 attempts is not more than 80% of
500. -/
theorem C3_early_accept_counterexample :
    (placeWord ctxC3).attempts = 1 ∧ (placeWord ctxC3).attempts < ctxC3.maxA ∧
    (placeWord ctxC3).placed = true ∧ candAccept ctxC3 0 = true ∧
    ¬ (candDist ctxC3 0 < min ctxC3.width ctxC3.height * 0.1 ∨
        ((0 : ℕ) : ℝ) > (ctxC3.maxA : ℝ) * 0.8) := by
  refine ⟨by rw [placeWord_ctxC3], ?_, by rw [placeWord_ctxC3], candAccept_ctxC3, ?_⟩
  · rw [placeWord_ctxC3, show ctxC3.maxA = 500 from rfl]
    norm_num
  · rw [candDist_ctxC3, show ctxC3.width = (1000 : ℝ) from rfl,
      show ctxC3.height = (100 : ℝ) from rfl, show ctxC3.maxA = 500 from rfl,
      show min (1000 : ℝ) 100 = 100 from min_eq_right (by norm_num)]
    norm_num

end WordClaude
